import Mathlib

/-!
Shallow embedding of the vote-ledger logic of the "Kgotla" forum server.

Embedded code:
* `src/shared/schema.ts` — the `votes`, `posts` and `comments` tables
  (only the columns the vote logic touches; `createdAt` timestamps are
  not modelled).  The drizzle `references(...)` declarations on
  `votes.postId` and `votes.commentId` are modelled as foreign-key
  checks at insert time, which PostgreSQL enforces; a violated
  constraint makes the insert throw.
* `src/server/storage.ts` — `getVote`, `createVote`, `updateVote`,
  `deleteVote`.  JavaScript truthiness (`if (postId)`) is modelled by
  `truthy`, which is false for `undefined` (`none`) and `0`.  The
  computed-key update object `\x7b [oldField]: old - 1, [newField]: new + 1 \x7d`
  is modelled by `updObj`: when both keys coincide the later entry wins,
  exactly as in a JavaScript object literal.
* `src/server/routes.ts` — the `POST /api/votes` handler (`castVote`
  below).  The authenticated caller id is a parameter (the 401 branch is
  upstream of everything the claims discuss).  `insertVoteSchema` is
  `createInsertSchema(votes).omit(id, createdAt)`: on a body whose
  fields already have the right runtime types it always succeeds, since
  the generated zod schema only checks that `type` is a string and that
  the id fields are numbers or absent — it does not restrict `type` to
  "upvote"/"downvote".  Bodies are modelled well-typed, so the 400
  branch of the handler is present but never taken.  The `errors`
  detail string of the 400 body and the `createdAt` field of returned
  vote rows are elided from the JSON model.  Database or other thrown
  errors reach the handler's catch block, which answers 500.
-/

namespace Kgotla

/-- A row of the `votes` table (`src/shared/schema.ts`).  `postId` and
`commentId` are nullable integer columns; `type` is an unconstrained
varchar holding "upvote" or "downvote" by convention only. -/
structure Vote where
  id : Nat
  userId : String
  postId : Option Nat
  commentId : Option Nat
  type : String
deriving Repr, DecidableEq

/-- The columns of a `posts` row that the vote logic reads or writes. -/
structure Post where
  id : Nat
  upvotes : Int
  downvotes : Int
deriving Repr, DecidableEq

/-- The columns of a `comments` row that the vote logic reads or writes. -/
structure Comment where
  id : Nat
  upvotes : Int
  downvotes : Int
deriving Repr, DecidableEq

/-- The database state seen by the vote operations.  `nextVoteId` is the
`serial` sequence backing `votes.id`. -/
structure DbState where
  votes : List Vote
  posts : List Post
  comments : List Comment
  nextVoteId : Nat
deriving Repr, DecidableEq

/-- The argument of `storage.createVote` (insertable columns of `votes`). -/
structure InsertVote where
  userId : String
  postId : Option Nat
  commentId : Option Nat
  type : String
deriving Repr, DecidableEq

/-- The request body of `POST /api/votes` after destructuring
`\x7b postId, commentId, type \x7d`, assumed well-typed. -/
structure VoteBody where
  postId : Option Nat
  commentId : Option Nat
  type : String
deriving Repr, DecidableEq

/-- JavaScript truthiness of an optional numeric id: `undefined` and `0`
are falsy, every other number is truthy. -/
def truthy : Option Nat → Bool
  | some n => n != 0
  | none => false

/-- A fragment of JSON large enough for the route's response bodies. -/
inductive Json where
  | str (s : String)
  | num (n : Int)
  | null
  | obj (fields : List (String × Json))
deriving Repr

/-- Field lookup in a JSON object (first binding wins); `none` on
non-objects and absent keys. -/
def Json.getField : Json → String → Option Json
  | .obj fields, key => (fields.find? (fun f => f.1 == key)).map (·.2)
  | _, _ => none

/-- `res.json(vote)` — serialization of a vote row (`createdAt` elided). -/
def voteToJson (v : Vote) : Json :=
  .obj [("id", .num v.id), ("userId", .str v.userId),
        ("postId", match v.postId with | some p => .num p | none => .null),
        ("commentId", match v.commentId with | some c => .num c | none => .null),
        ("type", .str v.type)]

/-- The predicate built by `storage.getVote`: always `eq(votes.userId, userId)`,
plus `eq(votes.postId, postId)` only when `postId` is truthy, plus
`eq(votes.commentId, commentId)` only when `commentId` is truthy.  SQL
`eq` on a NULL column is not satisfied, matching `Option` equality. -/
def voteMatches (userId : String) (postId commentId : Option Nat) (v : Vote) : Bool :=
  v.userId == userId
    && (if truthy postId then v.postId == postId else true)
    && (if truthy commentId then v.commentId == commentId else true)

/-- `storage.getVote`: select the first row satisfying the accumulated
conditions (the handler destructures `[vote]`). -/
def getVote (s : DbState) (userId : String) (postId commentId : Option Nat) : Option Vote :=
  s.votes.find? (voteMatches userId postId commentId)

/-- Whether a post with the given id exists (`posts.id` foreign-key target). -/
def postExists (s : DbState) (p : Nat) : Bool :=
  s.posts.any (fun P => P.id == p)

/-- Whether a comment with the given id exists. -/
def commentExists (s : DbState) (c : Nat) : Bool :=
  s.comments.any (fun C => C.id == c)

/-- The foreign-key constraints declared on `votes` in
`src/shared/schema.ts` (`postId references posts.id`, `commentId
references comments.id`); a NULL column is exempt. -/
def fkOk (s : DbState) (v : InsertVote) : Bool :=
  (match v.postId with | some p => postExists s p | none => true)
    && (match v.commentId with | some c => commentExists s c | none => true)

/-- An update object: ordered field/delta pairs, applied left to right so
that a later duplicate key overwrites an earlier one — as in the
JavaScript object literal that `updateVote` builds. -/
def updObj (oldField newField : String) : List (String × Int) :=
  if oldField == newField then [(newField, 1)] else [(oldField, -1), (newField, 1)]

/-- Apply one field/delta pair to a post row (`set(\x7b [field]: field ± 1 \x7d)`). -/
def Post.applyDelta (P : Post) (fd : String × Int) : Post :=
  if fd.1 == "upvotes" then { P with upvotes := P.upvotes + fd.2 }
  else { P with downvotes := P.downvotes + fd.2 }

/-- Apply one field/delta pair to a comment row. -/
def Comment.applyDelta (C : Comment) (fd : String × Int) : Comment :=
  if fd.1 == "upvotes" then { C with upvotes := C.upvotes + fd.2 }
  else { C with downvotes := C.downvotes + fd.2 }

/-- `db.update(posts).set(deltas).where(eq(posts.id, p))`. -/
def updatePosts (ps : List Post) (p : Nat) (deltas : List (String × Int)) : List Post :=
  ps.map (fun P => if P.id == p then deltas.foldl Post.applyDelta P else P)

/-- `db.update(comments).set(deltas).where(eq(comments.id, c))`. -/
def updateComments (cs : List Comment) (c : Nat) (deltas : List (String × Int)) : List Comment :=
  cs.map (fun C => if C.id == c then deltas.foldl Comment.applyDelta C else C)

/-- The counter column picked by `vote.type === "upvote" ? "upvotes" : "downvotes"`:
every string other than "upvote" selects "downvotes". -/
def fieldOf (type : String) : String :=
  if type == "upvote" then "upvotes" else "downvotes"

/-- Errors a storage call can throw into the route's catch block. -/
inductive DbError where
  | fkViolation
deriving Repr, DecidableEq

/-- `storage.createVote`: insert the row (throwing on a foreign-key
violation), then increment the matching counter of the post and/or
comment the row points at (each guarded by JS truthiness of the id). -/
def createVote (s : DbState) (v : InsertVote) : Except DbError (Vote × DbState) :=
  if fkOk s v then
    let newVote : Vote :=
      { id := s.nextVoteId, userId := v.userId, postId := v.postId,
        commentId := v.commentId, type := v.type }
    let s1 : DbState := { s with votes := s.votes ++ [newVote], nextVoteId := s.nextVoteId + 1 }
    let s2 : DbState :=
      if truthy v.postId then
        { s1 with posts := updatePosts s1.posts (v.postId.getD 0) [(fieldOf v.type, 1)] }
      else s1
    let s3 : DbState :=
      if truthy v.commentId then
        { s2 with comments := updateComments s2.comments (v.commentId.getD 0) [(fieldOf v.type, 1)] }
      else s2
    .ok (newVote, s3)
  else
    .error .fkViolation

/-- `storage.updateVote`: re-select the row by id; if present, adjust the
counters of its post and/or comment with the two-entry update object
(old field −1 overwritten when the new field coincides), then set the
row's type and return the updated row (`none` when no row had the id). -/
def updateVote (s : DbState) (id : Nat) (type : String) : Option Vote × DbState :=
  match s.votes.find? (fun v => v.id == id) with
  | some vote =>
    let deltas := updObj (fieldOf vote.type) (fieldOf type)
    let posts1 :=
      if truthy vote.postId then updatePosts s.posts (vote.postId.getD 0) deltas else s.posts
    let comments1 :=
      if truthy vote.commentId then
        updateComments s.comments (vote.commentId.getD 0) deltas
      else s.comments
    let newVotes := s.votes.map (fun w => if w.id == id then { w with type := type } else w)
    (newVotes.find? (fun w => w.id == id),
     { s with posts := posts1, comments := comments1, votes := newVotes })
  | none =>
    let newVotes := s.votes.map (fun w => if w.id == id then { w with type := type } else w)
    (newVotes.find? (fun w => w.id == id), s)

/-- `storage.deleteVote`: re-select the row by id; if present, delete
every row with that id, then decrement the counter matching the row's
type on its post and/or comment (each guarded by truthiness). -/
def deleteVote (s : DbState) (id : Nat) : DbState :=
  match s.votes.find? (fun v => v.id == id) with
  | some vote =>
    let votes1 := s.votes.filter (fun w => !(w.id == id))
    let posts1 :=
      if truthy vote.postId then
        updatePosts s.posts (vote.postId.getD 0) [(fieldOf vote.type, -1)]
      else s.posts
    let comments1 :=
      if truthy vote.commentId then
        updateComments s.comments (vote.commentId.getD 0) [(fieldOf vote.type, -1)]
      else s.comments
    { s with votes := votes1, posts := posts1, comments := comments1 }
  | none => s

/-- The 200 body `\x7b message: "Vote removed" \x7d`. -/
def removedMsg : Json := .obj [("message", .str "Vote removed")]

/-- The 500 body `\x7b message: "Failed to create vote" \x7d`. -/
def failedMsg : Json := .obj [("message", .str "Failed to create vote")]

/-- The `POST /api/votes` handler of `src/server/routes.ts` for an
authenticated caller: look up an existing vote with `getVote`; on a hit
with equal type delete it and answer the removal message, on a hit with
a different type call `updateVote` and answer the updated row; otherwise
validate (always succeeds on a well-typed body, see the header comment)
and `createVote`, answering the created row, or 500 when the insert
throws. Returns (HTTP status, body) and the resulting database state. -/
def castVote (s : DbState) (userId : String) (body : VoteBody) : (Nat × Json) × DbState :=
  match getVote s userId body.postId body.commentId with
  | some existingVote =>
    if existingVote.type == body.type then
      ((200, removedMsg), deleteVote s existingVote.id)
    else
      let r := updateVote s existingVote.id body.type
      ((200, match r.1 with | some v => voteToJson v | none => Json.null), r.2)
  | none =>
    match createVote s { userId := userId, postId := body.postId,
                         commentId := body.commentId, type := body.type } with
    | .ok (v, s2) => ((200, voteToJson v), s2)
    | .error _ => ((500, failedMsg), s)

/-- A votable target: a post or a comment (spec §3, "Votable Target"). -/
inductive TargetRef where
  | post (id : Nat)
  | comment (id : Nat)
deriving Repr, DecidableEq

/-- The request body the client sends for a target (`voting-system.tsx`
sends `\x7b postId, type \x7d` for posts and `\x7b commentId, type \x7d` for comments). -/
def mkBody : TargetRef → String → VoteBody
  | .post p, t => { postId := some p, commentId := none, type := t }
  | .comment c, t => { postId := none, commentId := some c, type := t }

/-- The target's upvote counter, read off the first matching row. -/
def targetUp (s : DbState) : TargetRef → Option Int
  | .post p => (s.posts.find? (fun P => P.id == p)).map (·.upvotes)
  | .comment c => (s.comments.find? (fun C => C.id == c)).map (·.upvotes)

/-- The target's downvote counter, read off the first matching row. -/
def targetDown (s : DbState) : TargetRef → Option Int
  | .post p => (s.posts.find? (fun P => P.id == p)).map (·.downvotes)
  | .comment c => (s.comments.find? (fun C => C.id == c)).map (·.downvotes)

/-- The id carried by a target reference. -/
def TargetRef.tid : TargetRef → Nat
  | .post p => p
  | .comment c => c

/-- The `postId` column a vote on this target carries. -/
def TargetRef.postIdOpt : TargetRef → Option Nat
  | .post p => some p
  | .comment _ => none

/-- The `commentId` column a vote on this target carries. -/
def TargetRef.commentIdOpt : TargetRef → Option Nat
  | .post _ => none
  | .comment c => some c

/-- Number of vote rows of the given type referencing post `p`. -/
def postVoteCount (votes : List Vote) (p : Nat) (t : String) : Nat :=
  votes.countP (fun v => v.postId == some p && v.type == t)

/-- Number of vote rows of the given type referencing comment `c`. -/
def commentVoteCount (votes : List Vote) (c : Nat) (t : String) : Nat :=
  votes.countP (fun v => v.commentId == some c && v.type == t)

/-- A direction string admitted by the protocol (spec §4.1 precondition). -/
def validType (t : String) : Prop :=
  t = "upvote" ∨ t = "downvote"

instance : DecidablePred validType :=
  fun t => inferInstanceAs (Decidable (t = "upvote" ∨ t = "downvote"))

/-- A consistent database state: every vote row carries a protocol
direction, row ids are below the serial sequence value and pairwise
distinct, target ids are nonzero (PostgreSQL `serial` keys start at 1),
and each target's denormalized counters equal the number of vote rows of
the corresponding type that reference it. -/
def Consistent (s : DbState) : Prop :=
  (∀ v ∈ s.votes, validType v.type) ∧
  (∀ v ∈ s.votes, v.id < s.nextVoteId) ∧
  s.votes.Pairwise (fun a b => a.id ≠ b.id) ∧
  (∀ P ∈ s.posts, P.id ≠ 0 ∧
    P.upvotes = (postVoteCount s.votes P.id "upvote" : Int) ∧
    P.downvotes = (postVoteCount s.votes P.id "downvote" : Int)) ∧
  (∀ C ∈ s.comments, C.id ≠ 0 ∧
    C.upvotes = (commentVoteCount s.votes C.id "upvote" : Int) ∧
    C.downvotes = (commentVoteCount s.votes C.id "downvote" : Int))

/-- Run a sequence of vote requests (caller id and body) through the
route handler, threading the database state. -/
def runOps (s : DbState) (ops : List (String × VoteBody)) : DbState :=
  ops.foldl (fun s op => (castVote s op.1 op.2).2) s

/-- A vote row belonging to the (voter, target) pair: cast by `V` and
referencing the target's id in the matching column. -/
def isPairVote (V : String) (tgt : TargetRef) (v : Vote) : Bool :=
  v.userId == V &&
    (match tgt with
     | .post p => v.postId == some p
     | .comment c => v.commentId == some c)

/-- Number of vote rows for the (voter, target) pair. -/
def pairVoteCount (s : DbState) (V : String) (tgt : TargetRef) : Nat :=
  s.votes.countP (isPairVote V tgt)

/-! ### Helper lemmas -/

theorem truthy_eq_true {o : Option Nat} (h : truthy o = true) : ∃ n, o = some n ∧ n ≠ 0 := by
  cases o with
  | none => simp [truthy] at h
  | some n =>
    refine ⟨n, rfl, ?_⟩
    simp [truthy] at h
    exact h

theorem truthy_eq_false {o : Option Nat} (h : truthy o = false) : o = none ∨ o = some 0 := by
  cases o with
  | none => exact .inl rfl
  | some n =>
    simp [truthy] at h
    exact .inr (by rw [h])

theorem find?_id_unique {votes : List Vote} {ev : Vote}
    (hpw : votes.Pairwise (fun a b => a.id ≠ b.id)) (hmem : ev ∈ votes) :
    votes.find? (fun v => v.id == ev.id) = some ev := by
  induction votes with
  | nil => cases hmem
  | cons hd tl ih =>
    rcases List.pairwise_cons.mp hpw with ⟨hhd, htl⟩
    rcases List.mem_cons.mp hmem with rfl | hmem2
    · simp [List.find?_cons]
    · have hne : hd.id ≠ ev.id := hhd ev hmem2
      have hb : (hd.id == ev.id) = false := by simp [hne]
      simp only [List.find?_cons, hb]
      exact ih htl hmem2

theorem countP_filter_ne_id {votes : List Vote} {ev : Vote} (q : Vote → Bool)
    (hpw : votes.Pairwise (fun a b => a.id ≠ b.id)) (hmem : ev ∈ votes) :
    (votes.filter (fun w => !(w.id == ev.id))).countP q + (if q ev then 1 else 0)
      = votes.countP q := by
  induction votes with
  | nil => cases hmem
  | cons hd tl ih =>
    rcases List.pairwise_cons.mp hpw with ⟨hhd, htl⟩
    rcases List.mem_cons.mp hmem with rfl | hmem2
    · have htlid : tl.filter (fun w => !(w.id == ev.id)) = tl :=
        List.filter_eq_self.mpr (fun a ha => by simp [Ne.symm (hhd a ha)])
      rw [List.filter_cons, if_neg (by simp), htlid, List.countP_cons]
    · have hne : hd.id ≠ ev.id := hhd ev hmem2
      rw [List.filter_cons, if_pos (by simp [hne]), List.countP_cons, List.countP_cons]
      have := ih htl hmem2
      omega

theorem countP_map_retype {votes : List Vote} {ev : Vote} (t : String) (q : Vote → Bool)
    (hpw : votes.Pairwise (fun a b => a.id ≠ b.id)) (hmem : ev ∈ votes) :
    (votes.map (fun w => if w.id == ev.id then { w with type := t } else w)).countP q
        + (if q ev then 1 else 0)
      = votes.countP q + (if q { ev with type := t } then 1 else 0) := by
  induction votes with
  | nil => cases hmem
  | cons hd tl ih =>
    rcases List.pairwise_cons.mp hpw with ⟨hhd, htl⟩
    rcases List.mem_cons.mp hmem with rfl | hmem2
    · have htlid : tl.map (fun w => if w.id == ev.id then { w with type := t } else w) = tl := by
        rw [show tl.map (fun w => if w.id == ev.id then { w with type := t } else w)
              = tl.map (fun w => w) from
            List.map_congr_left (fun a ha => by simp [Ne.symm (hhd a ha)])]
        exact List.map_id' tl
      rw [List.map_cons, htlid, if_pos (by simp), List.countP_cons, List.countP_cons]
      omega
    · have hne : hd.id ≠ ev.id := hhd ev hmem2
      rw [List.map_cons, if_neg (by simp [hne]), List.countP_cons, List.countP_cons]
      have := ih htl hmem2
      omega

theorem mem_updatePosts {ps : List Post} {p : Nat} {deltas : List (String × Int)} {P' : Post}
    (h : P' ∈ updatePosts ps p deltas) :
    ∃ P, P ∈ ps ∧ P' = (if P.id == p then deltas.foldl Post.applyDelta P else P) := by
  rcases List.mem_map.mp h with ⟨P, hP, rfl⟩
  exact ⟨P, hP, rfl⟩

theorem mem_updateComments {cs : List Comment} {c : Nat} {deltas : List (String × Int)}
    {C' : Comment} (h : C' ∈ updateComments cs c deltas) :
    ∃ C, C ∈ cs ∧ C' = (if C.id == c then deltas.foldl Comment.applyDelta C else C) := by
  rcases List.mem_map.mp h with ⟨C, hC, rfl⟩
  exact ⟨C, hC, rfl⟩

theorem foldl_up_delta (P : Post) (d : Int) :
    [(("upvotes" : String), d)].foldl Post.applyDelta P = { P with upvotes := P.upvotes + d } :=
  rfl

theorem foldl_down_delta (P : Post) (d : Int) :
    [(("downvotes" : String), d)].foldl Post.applyDelta P
      = { P with downvotes := P.downvotes + d } :=
  rfl

theorem foldl_switch_ud (P : Post) :
    [(("upvotes" : String), (-1 : Int)), ("downvotes", 1)].foldl Post.applyDelta P
      = { P with upvotes := P.upvotes + (-1), downvotes := P.downvotes + 1 } :=
  rfl

theorem foldl_switch_du (P : Post) :
    [(("downvotes" : String), (-1 : Int)), ("upvotes", 1)].foldl Post.applyDelta P
      = { P with upvotes := P.upvotes + 1, downvotes := P.downvotes + (-1) } :=
  rfl

theorem cfoldl_up_delta (C : Comment) (d : Int) :
    [(("upvotes" : String), d)].foldl Comment.applyDelta C
      = { C with upvotes := C.upvotes + d } :=
  rfl

theorem cfoldl_down_delta (C : Comment) (d : Int) :
    [(("downvotes" : String), d)].foldl Comment.applyDelta C
      = { C with downvotes := C.downvotes + d } :=
  rfl

theorem cfoldl_switch_ud (C : Comment) :
    [(("upvotes" : String), (-1 : Int)), ("downvotes", 1)].foldl Comment.applyDelta C
      = { C with upvotes := C.upvotes + (-1), downvotes := C.downvotes + 1 } :=
  rfl

theorem cfoldl_switch_du (C : Comment) :
    [(("downvotes" : String), (-1 : Int)), ("upvotes", 1)].foldl Comment.applyDelta C
      = { C with upvotes := C.upvotes + 1, downvotes := C.downvotes + (-1) } :=
  rfl

theorem find?_map_retype {votes : List Vote} {ev : Vote} (t : String)
    (hpw : votes.Pairwise (fun a b => a.id ≠ b.id)) (hmem : ev ∈ votes) :
    (votes.map (fun w => if w.id == ev.id then { w with type := t } else w)).find?
        (fun w => w.id == ev.id)
      = some { ev with type := t } := by
  induction votes with
  | nil => cases hmem
  | cons hd tl ih =>
    rcases List.pairwise_cons.mp hpw with ⟨hhd, htl⟩
    rcases List.mem_cons.mp hmem with rfl | hmem2
    · simp [List.find?_cons]
    · have hne : hd.id ≠ ev.id := hhd ev hmem2
      have hb : (hd.id == ev.id) = false := by simp [hne]
      simp only [List.map_cons, hb, Bool.false_eq_true, if_false, List.find?_cons]
      exact ih htl hmem2

theorem updateVote_eq {s : DbState} {ev : Vote} (t : String)
    (hpw : s.votes.Pairwise (fun a b => a.id ≠ b.id)) (hmem : ev ∈ s.votes) :
    updateVote s ev.id t =
      (some { ev with type := t },
       { s with
         votes := s.votes.map (fun w => if w.id == ev.id then { w with type := t } else w),
         posts := if truthy ev.postId then
             updatePosts s.posts (ev.postId.getD 0) (updObj (fieldOf ev.type) (fieldOf t))
           else s.posts,
         comments := if truthy ev.commentId then
             updateComments s.comments (ev.commentId.getD 0)
               (updObj (fieldOf ev.type) (fieldOf t))
           else s.comments }) := by
  have hfind := find?_id_unique hpw hmem
  unfold updateVote
  rw [hfind]
  dsimp only
  rw [find?_map_retype t hpw hmem]

theorem countP_retype_ff {votes : List Vote} {ev : Vote} (t : String) (q : Vote → Bool)
    (hpw : votes.Pairwise (fun a b => a.id ≠ b.id)) (hmem : ev ∈ votes)
    (h1 : q ev = false) (h2 : q { ev with type := t } = false) :
    (votes.map (fun w => if w.id == ev.id then { w with type := t } else w)).countP q
      = votes.countP q := by
  have h := countP_map_retype t q hpw hmem
  rw [h1, h2] at h
  simpa using h

theorem countP_retype_tf {votes : List Vote} {ev : Vote} (t : String) (q : Vote → Bool)
    (hpw : votes.Pairwise (fun a b => a.id ≠ b.id)) (hmem : ev ∈ votes)
    (h1 : q ev = true) (h2 : q { ev with type := t } = false) :
    (votes.map (fun w => if w.id == ev.id then { w with type := t } else w)).countP q + 1
      = votes.countP q := by
  have h := countP_map_retype t q hpw hmem
  rw [h1, h2] at h
  simpa using h

theorem countP_retype_ft {votes : List Vote} {ev : Vote} (t : String) (q : Vote → Bool)
    (hpw : votes.Pairwise (fun a b => a.id ≠ b.id)) (hmem : ev ∈ votes)
    (h1 : q ev = false) (h2 : q { ev with type := t } = true) :
    (votes.map (fun w => if w.id == ev.id then { w with type := t } else w)).countP q
      = votes.countP q + 1 := by
  have h := countP_map_retype t q hpw hmem
  rw [h1, h2] at h
  simpa using h

theorem consistent_updateVote {s : DbState} {ev : Vote} {t : String}
    (h : Consistent s) (hmem : ev ∈ s.votes) (ht : validType t) (hne : ev.type ≠ t) :
    Consistent (updateVote s ev.id t).2 := by
  obtain ⟨hty, hid, hpw, hposts, hcomments⟩ := h
  have hvalid : validType ev.type := hty ev hmem
  rw [updateVote_eq t hpw hmem]
  have hidf : ∀ w : Vote,
      ((if w.id == ev.id then { w with type := t } else w) : Vote).id = w.id := by
    intro w
    by_cases hw : (w.id == ev.id) = true <;> simp [hw]
  refine ⟨?_, ?_, ?_, ?_, ?_⟩
  · intro v hv
    rcases List.mem_map.mp hv with ⟨w, hw, rfl⟩
    by_cases hww : (w.id == ev.id) = true
    · simp only [hww, if_true]
      exact ht
    · simp only [hww, Bool.false_eq_true, if_false] at *
      exact hty w hw
  · intro v hv
    rcases List.mem_map.mp hv with ⟨w, hw, rfl⟩
    rw [hidf w]
    exact hid w hw
  · rw [List.pairwise_map]
    exact hpw.imp (fun {a b} hab => by rw [hidf a, hidf b]; exact hab)
  · intro P' hP'
    by_cases htr : truthy ev.postId = true
    · rw [if_pos htr] at hP'
      obtain ⟨p, hpeq, hpne⟩ := truthy_eq_true htr
      rw [hpeq] at hP'
      simp only [Option.getD_some] at hP'
      obtain ⟨P, hPmem, hP'eq⟩ := mem_updatePosts hP'
      obtain ⟨hPid0, hPup, hPdown⟩ := hposts P hPmem
      simp only [postVoteCount] at hPup hPdown
      simp only [postVoteCount]
      by_cases hidp : P.id = p
      · subst hidp
        rcases hvalid with hup | hdown <;> rcases ht with htu | htd
        · exact absurd (hup.trans htu.symm) hne
        · subst htd
          have hcup := countP_retype_tf "downvote"
            (fun v => v.postId == some P.id && v.type == "upvote") hpw hmem
            (by simp [hpeq, hup]) (by simp)
          have hcdown := countP_retype_ft "downvote"
            (fun v => v.postId == some P.id && v.type == "downvote") hpw hmem
            (by simp [hpeq, hup]) (by simp [hpeq])
          rw [if_pos (by simp), hup,
            show updObj (fieldOf "upvote") (fieldOf "downvote")
              = [(("upvotes" : String), (-1 : Int)), ("downvotes", 1)] from rfl,
            foldl_switch_ud] at hP'eq
          rw [hP'eq]
          refine ⟨hPid0, ?_, ?_⟩ <;> dsimp only <;> omega
        · subst htu
          have hcup := countP_retype_ft "upvote"
            (fun v => v.postId == some P.id && v.type == "upvote") hpw hmem
            (by simp [hpeq, hdown]) (by simp [hpeq])
          have hcdown := countP_retype_tf "upvote"
            (fun v => v.postId == some P.id && v.type == "downvote") hpw hmem
            (by simp [hpeq, hdown]) (by simp)
          rw [if_pos (by simp), hdown,
            show updObj (fieldOf "downvote") (fieldOf "upvote")
              = [(("downvotes" : String), (-1 : Int)), ("upvotes", 1)] from rfl,
            foldl_switch_du] at hP'eq
          rw [hP'eq]
          refine ⟨hPid0, ?_, ?_⟩ <;> dsimp only <;> omega
        · exact absurd (hdown.trans htd.symm) hne
      · have hnep : ¬ (p = P.id) := fun hh => hidp hh.symm
        have hcup := countP_retype_ff t
          (fun v => v.postId == some P.id && v.type == "upvote") hpw hmem
          (by simp [hpeq, hnep]) (by simp [hpeq, hnep])
        have hcdown := countP_retype_ff t
          (fun v => v.postId == some P.id && v.type == "downvote") hpw hmem
          (by simp [hpeq, hnep]) (by simp [hpeq, hnep])
        rw [if_neg (by simp [hidp])] at hP'eq
        rw [hP'eq]
        exact ⟨hPid0, by omega, by omega⟩
    · rw [if_neg htr] at hP'
      simp only [Bool.not_eq_true] at htr
      obtain ⟨hPid0, hPup, hPdown⟩ := hposts P' hP'
      simp only [postVoteCount] at hPup hPdown
      simp only [postVoteCount]
      have hfalse : (ev.postId == some P'.id) = false := by
        rcases truthy_eq_false htr with hnone | hzero
        · simp [hnone]
        · have : ¬ ((0 : Nat) = P'.id) := fun hh => hPid0 hh.symm
          simp [hzero, this]
      have hcup := countP_retype_ff t
        (fun v => v.postId == some P'.id && v.type == "upvote") hpw hmem
        (by simp [hfalse]) (by simp [hfalse])
      have hcdown := countP_retype_ff t
        (fun v => v.postId == some P'.id && v.type == "downvote") hpw hmem
        (by simp [hfalse]) (by simp [hfalse])
      exact ⟨hPid0, by omega, by omega⟩
  · intro C' hC'
    by_cases htr : truthy ev.commentId = true
    · rw [if_pos htr] at hC'
      obtain ⟨c, hceq, hcne⟩ := truthy_eq_true htr
      rw [hceq] at hC'
      simp only [Option.getD_some] at hC'
      obtain ⟨C, hCmem, hC'eq⟩ := mem_updateComments hC'
      obtain ⟨hCid0, hCup, hCdown⟩ := hcomments C hCmem
      simp only [commentVoteCount] at hCup hCdown
      simp only [commentVoteCount]
      by_cases hidc : C.id = c
      · subst hidc
        rcases hvalid with hup | hdown <;> rcases ht with htu | htd
        · exact absurd (hup.trans htu.symm) hne
        · subst htd
          have hcup := countP_retype_tf "downvote"
            (fun v => v.commentId == some C.id && v.type == "upvote") hpw hmem
            (by simp [hceq, hup]) (by simp)
          have hcdown := countP_retype_ft "downvote"
            (fun v => v.commentId == some C.id && v.type == "downvote") hpw hmem
            (by simp [hceq, hup]) (by simp [hceq])
          rw [if_pos (by simp), hup,
            show updObj (fieldOf "upvote") (fieldOf "downvote")
              = [(("upvotes" : String), (-1 : Int)), ("downvotes", 1)] from rfl,
            cfoldl_switch_ud] at hC'eq
          rw [hC'eq]
          refine ⟨hCid0, ?_, ?_⟩ <;> dsimp only <;> omega
        · subst htu
          have hcup := countP_retype_ft "upvote"
            (fun v => v.commentId == some C.id && v.type == "upvote") hpw hmem
            (by simp [hceq, hdown]) (by simp [hceq])
          have hcdown := countP_retype_tf "upvote"
            (fun v => v.commentId == some C.id && v.type == "downvote") hpw hmem
            (by simp [hceq, hdown]) (by simp)
          rw [if_pos (by simp), hdown,
            show updObj (fieldOf "downvote") (fieldOf "upvote")
              = [(("downvotes" : String), (-1 : Int)), ("upvotes", 1)] from rfl,
            cfoldl_switch_du] at hC'eq
          rw [hC'eq]
          refine ⟨hCid0, ?_, ?_⟩ <;> dsimp only <;> omega
        · exact absurd (hdown.trans htd.symm) hne
      · have hnec : ¬ (c = C.id) := fun hh => hidc hh.symm
        have hcup := countP_retype_ff t
          (fun v => v.commentId == some C.id && v.type == "upvote") hpw hmem
          (by simp [hceq, hnec]) (by simp [hceq, hnec])
        have hcdown := countP_retype_ff t
          (fun v => v.commentId == some C.id && v.type == "downvote") hpw hmem
          (by simp [hceq, hnec]) (by simp [hceq, hnec])
        rw [if_neg (by simp [hidc])] at hC'eq
        rw [hC'eq]
        exact ⟨hCid0, by omega, by omega⟩
    · rw [if_neg htr] at hC'
      simp only [Bool.not_eq_true] at htr
      obtain ⟨hCid0, hCup, hCdown⟩ := hcomments C' hC'
      simp only [commentVoteCount] at hCup hCdown
      simp only [commentVoteCount]
      have hfalse : (ev.commentId == some C'.id) = false := by
        rcases truthy_eq_false htr with hnone | hzero
        · simp [hnone]
        · have : ¬ ((0 : Nat) = C'.id) := fun hh => hCid0 hh.symm
          simp [hzero, this]
      have hcup := countP_retype_ff t
        (fun v => v.commentId == some C'.id && v.type == "upvote") hpw hmem
        (by simp [hfalse]) (by simp [hfalse])
      have hcdown := countP_retype_ff t
        (fun v => v.commentId == some C'.id && v.type == "downvote") hpw hmem
        (by simp [hfalse]) (by simp [hfalse])
      exact ⟨hCid0, by omega, by omega⟩


theorem consistent_deleteVote {s : DbState} {ev : Vote}
    (h : Consistent s) (hmem : ev ∈ s.votes) :
    Consistent (deleteVote s ev.id) := by
  obtain ⟨hty, hid, hpw, hposts, hcomments⟩ := h
  have hfind := find?_id_unique hpw hmem
  have hvalid : validType ev.type := hty ev hmem
  have hdel : deleteVote s ev.id =
      { s with
        votes := s.votes.filter (fun w => !(w.id == ev.id)),
        posts := if truthy ev.postId then
            updatePosts s.posts (ev.postId.getD 0) [(fieldOf ev.type, -1)]
          else s.posts,
        comments := if truthy ev.commentId then
            updateComments s.comments (ev.commentId.getD 0) [(fieldOf ev.type, -1)]
          else s.comments } := by
    unfold deleteVote
    rw [hfind]
  rw [hdel]
  have hsub : List.Sublist (s.votes.filter (fun w => !(w.id == ev.id))) s.votes :=
    List.filter_sublist s.votes
  refine ⟨?_, ?_, ?_, ?_, ?_⟩
  · intro v hv
    exact hty v (List.mem_of_mem_filter hv)
  · intro v hv
    exact hid v (List.mem_of_mem_filter hv)
  · exact hpw.sublist hsub
  · intro P' hP'
    by_cases htr : truthy ev.postId = true
    · rw [if_pos htr] at hP'
      obtain ⟨p, hpeq, hpne⟩ := truthy_eq_true htr
      rw [hpeq] at hP'
      simp only [Option.getD_some] at hP'
      obtain ⟨P, hPmem, hP'eq⟩ := mem_updatePosts hP'
      obtain ⟨hPid0, hPup, hPdown⟩ := hposts P hPmem
      simp only [postVoteCount] at hPup hPdown
      have hcup := countP_filter_ne_id
        (fun v => v.postId == some P.id && v.type == "upvote") hpw hmem
      have hcdown := countP_filter_ne_id
        (fun v => v.postId == some P.id && v.type == "downvote") hpw hmem
      simp only [postVoteCount]
      by_cases hidp : P.id = p
      · subst hidp
        rcases hvalid with hup | hdown
        · rw [if_pos (by simp), hup, show fieldOf "upvote" = "upvotes" from rfl,
            foldl_up_delta] at hP'eq
          subst hP'eq
          simp [hpeq, hup] at hcup hcdown
          refine ⟨hPid0, ?_, ?_⟩ <;> simp <;> omega
        · rw [if_pos (by simp), hdown, show fieldOf "downvote" = "downvotes" from rfl,
            foldl_down_delta] at hP'eq
          subst hP'eq
          simp [hpeq, hdown] at hcup hcdown
          refine ⟨hPid0, ?_, ?_⟩ <;> simp <;> omega
      · rw [if_neg (by simp [hidp])] at hP'eq
        rw [hP'eq]
        have hne : ¬ (p = P.id) := fun hh => hidp hh.symm
        simp [hpeq, hne] at hcup hcdown
        exact ⟨hPid0, by omega, by omega⟩
    · rw [if_neg htr] at hP'
      simp only [Bool.not_eq_true] at htr
      obtain ⟨hPid0, hPup, hPdown⟩ := hposts P' hP'
      simp only [postVoteCount] at hPup hPdown
      have hcup := countP_filter_ne_id
        (fun v => v.postId == some P'.id && v.type == "upvote") hpw hmem
      have hcdown := countP_filter_ne_id
        (fun v => v.postId == some P'.id && v.type == "downvote") hpw hmem
      simp only [postVoteCount]
      rcases truthy_eq_false htr with hnone | hzero
      · simp [hnone] at hcup hcdown
        exact ⟨hPid0, by omega, by omega⟩
      · have hne : ¬ ((0 : Nat) = P'.id) := fun hh => hPid0 hh.symm
        simp [hzero, hne] at hcup hcdown
        exact ⟨hPid0, by omega, by omega⟩
  · intro C' hC'
    by_cases htr : truthy ev.commentId = true
    · rw [if_pos htr] at hC'
      obtain ⟨c, hceq, hcne⟩ := truthy_eq_true htr
      rw [hceq] at hC'
      simp only [Option.getD_some] at hC'
      obtain ⟨C, hCmem, hC'eq⟩ := mem_updateComments hC'
      obtain ⟨hCid0, hCup, hCdown⟩ := hcomments C hCmem
      simp only [commentVoteCount] at hCup hCdown
      have hcup := countP_filter_ne_id
        (fun v => v.commentId == some C.id && v.type == "upvote") hpw hmem
      have hcdown := countP_filter_ne_id
        (fun v => v.commentId == some C.id && v.type == "downvote") hpw hmem
      simp only [commentVoteCount]
      by_cases hidc : C.id = c
      · subst hidc
        rcases hvalid with hup | hdown
        · rw [if_pos (by simp), hup, show fieldOf "upvote" = "upvotes" from rfl,
            cfoldl_up_delta] at hC'eq
          subst hC'eq
          simp [hceq, hup] at hcup hcdown
          refine ⟨hCid0, ?_, ?_⟩ <;> simp <;> omega
        · rw [if_pos (by simp), hdown, show fieldOf "downvote" = "downvotes" from rfl,
            cfoldl_down_delta] at hC'eq
          subst hC'eq
          simp [hceq, hdown] at hcup hcdown
          refine ⟨hCid0, ?_, ?_⟩ <;> simp <;> omega
      · rw [if_neg (by simp [hidc])] at hC'eq
        rw [hC'eq]
        have hne : ¬ (c = C.id) := fun hh => hidc hh.symm
        simp [hceq, hne] at hcup hcdown
        exact ⟨hCid0, by omega, by omega⟩
    · rw [if_neg htr] at hC'
      simp only [Bool.not_eq_true] at htr
      obtain ⟨hCid0, hCup, hCdown⟩ := hcomments C' hC'
      simp only [commentVoteCount] at hCup hCdown
      have hcup := countP_filter_ne_id
        (fun v => v.commentId == some C'.id && v.type == "upvote") hpw hmem
      have hcdown := countP_filter_ne_id
        (fun v => v.commentId == some C'.id && v.type == "downvote") hpw hmem
      simp only [commentVoteCount]
      rcases truthy_eq_false htr with hnone | hzero
      · simp [hnone] at hcup hcdown
        exact ⟨hCid0, by omega, by omega⟩
      · have hne : ¬ ((0 : Nat) = C'.id) := fun hh => hCid0 hh.symm
        simp [hzero, hne] at hcup hcdown
        exact ⟨hCid0, by omega, by omega⟩


theorem createVote_eq {s : DbState} {v : InsertVote} (hfk : fkOk s v = true) :
    createVote s v =
      .ok ({ id := s.nextVoteId, userId := v.userId, postId := v.postId,
             commentId := v.commentId, type := v.type },
           { votes := s.votes ++ [{ id := s.nextVoteId, userId := v.userId,
                                    postId := v.postId, commentId := v.commentId,
                                    type := v.type }],
             posts := if truthy v.postId then
                 updatePosts s.posts (v.postId.getD 0) [(fieldOf v.type, 1)]
               else s.posts,
             comments := if truthy v.commentId then
                 updateComments s.comments (v.commentId.getD 0) [(fieldOf v.type, 1)]
               else s.comments,
             nextVoteId := s.nextVoteId + 1 }) := by
  unfold createVote
  rw [if_pos hfk]
  dsimp only
  by_cases h1 : truthy v.postId = true <;> by_cases h2 : truthy v.commentId = true <;>
    simp [h1, h2]

theorem createVote_err {s : DbState} {v : InsertVote} (hfk : fkOk s v = false) :
    createVote s v = .error .fkViolation := by
  unfold createVote
  rw [if_neg (by simp [hfk])]

theorem countP_append_t (votes : List Vote) (nv : Vote) (q : Vote → Bool)
    (h : q nv = true) :
    (votes ++ [nv]).countP q = votes.countP q + 1 := by
  rw [List.countP_append]
  simp [List.countP_cons, h]

theorem countP_append_f (votes : List Vote) (nv : Vote) (q : Vote → Bool)
    (h : q nv = false) :
    (votes ++ [nv]).countP q = votes.countP q := by
  rw [List.countP_append]
  simp [List.countP_cons, h]

theorem consistent_createVote {s : DbState} {v : InsertVote} {nv : Vote} {s3 : DbState}
    (h : Consistent s) (ht : validType v.type)
    (hok : createVote s v = .ok (nv, s3)) :
    Consistent s3 := by
  obtain ⟨hty, hid, hpw, hposts, hcomments⟩ := h
  by_cases hfk : fkOk s v = true
  case neg =>
    rw [createVote_err (by revert hfk; cases fkOk s v <;> simp)] at hok
    cases hok
  rw [createVote_eq hfk] at hok
  injection hok with hok
  injection hok with hnv hs3
  subst hnv
  subst hs3
  set nv : Vote := { id := s.nextVoteId, userId := v.userId, postId := v.postId,
                     commentId := v.commentId, type := v.type } with hnvdef
  refine ⟨?_, ?_, ?_, ?_, ?_⟩
  · intro w hw
    rcases List.mem_append.mp hw with hw1 | hw2
    · exact hty w hw1
    · rw [List.mem_singleton.mp hw2]
      exact ht
  · intro w hw
    rcases List.mem_append.mp hw with hw1 | hw2
    · exact Nat.lt_succ_of_lt (hid w hw1)
    · rw [List.mem_singleton.mp hw2]
      exact Nat.lt_succ_self _
  · rw [List.pairwise_append]
    refine ⟨hpw, List.pairwise_singleton _ _, ?_⟩
    intro a ha b hb
    rw [List.mem_singleton.mp hb]
    exact Nat.ne_of_lt (hid a ha)
  · intro P' hP'
    by_cases htr : truthy v.postId = true
    · rw [if_pos htr] at hP'
      obtain ⟨p, hpeq, hpne⟩ := truthy_eq_true htr
      rw [hpeq] at hP'
      simp only [Option.getD_some] at hP'
      obtain ⟨P, hPmem, hP'eq⟩ := mem_updatePosts hP'
      obtain ⟨hPid0, hPup, hPdown⟩ := hposts P hPmem
      simp only [postVoteCount] at hPup hPdown
      simp only [postVoteCount]
      by_cases hidp : P.id = p
      · subst hidp
        rcases ht with hup | hdown
        · have hcup := countP_append_t s.votes nv
            (fun w => w.postId == some P.id && w.type == "upvote")
            (by simp [hnvdef, hpeq, hup])
          have hcdown := countP_append_f s.votes nv
            (fun w => w.postId == some P.id && w.type == "downvote")
            (by simp [hnvdef, hup])
          rw [if_pos (by simp), hup, show fieldOf "upvote" = "upvotes" from rfl,
            foldl_up_delta] at hP'eq
          rw [hP'eq]
          refine ⟨hPid0, ?_, ?_⟩ <;> dsimp only <;> omega
        · have hcup := countP_append_f s.votes nv
            (fun w => w.postId == some P.id && w.type == "upvote")
            (by simp [hnvdef, hdown])
          have hcdown := countP_append_t s.votes nv
            (fun w => w.postId == some P.id && w.type == "downvote")
            (by simp [hnvdef, hpeq, hdown])
          rw [if_pos (by simp), hdown, show fieldOf "downvote" = "downvotes" from rfl,
            foldl_down_delta] at hP'eq
          rw [hP'eq]
          refine ⟨hPid0, ?_, ?_⟩ <;> dsimp only <;> omega
      · have hnep : ¬ (p = P.id) := fun hh => hidp hh.symm
        have hcup := countP_append_f s.votes nv
          (fun w => w.postId == some P.id && w.type == "upvote")
          (by simp [hnvdef, hpeq, hnep])
        have hcdown := countP_append_f s.votes nv
          (fun w => w.postId == some P.id && w.type == "downvote")
          (by simp [hnvdef, hpeq, hnep])
        rw [if_neg (by simp [hidp])] at hP'eq
        rw [hP'eq]
        exact ⟨hPid0, by omega, by omega⟩
    · rw [if_neg htr] at hP'
      simp only [Bool.not_eq_true] at htr
      obtain ⟨hPid0, hPup, hPdown⟩ := hposts P' hP'
      simp only [postVoteCount] at hPup hPdown
      simp only [postVoteCount]
      have hfalse : (nv.postId == some P'.id) = false := by
        rcases truthy_eq_false htr with hnone | hzero
        · simp [hnvdef, hnone]
        · have : ¬ ((0 : Nat) = P'.id) := fun hh => hPid0 hh.symm
          simp [hnvdef, hzero, this]
      have hcup := countP_append_f s.votes nv
        (fun w => w.postId == some P'.id && w.type == "upvote") (by simp [hfalse])
      have hcdown := countP_append_f s.votes nv
        (fun w => w.postId == some P'.id && w.type == "downvote") (by simp [hfalse])
      exact ⟨hPid0, by omega, by omega⟩
  · intro C' hC'
    by_cases htr : truthy v.commentId = true
    · rw [if_pos htr] at hC'
      obtain ⟨c, hceq, hcne⟩ := truthy_eq_true htr
      rw [hceq] at hC'
      simp only [Option.getD_some] at hC'
      obtain ⟨C, hCmem, hC'eq⟩ := mem_updateComments hC'
      obtain ⟨hCid0, hCup, hCdown⟩ := hcomments C hCmem
      simp only [commentVoteCount] at hCup hCdown
      simp only [commentVoteCount]
      by_cases hidc : C.id = c
      · subst hidc
        rcases ht with hup | hdown
        · have hcup := countP_append_t s.votes nv
            (fun w => w.commentId == some C.id && w.type == "upvote")
            (by simp [hnvdef, hceq, hup])
          have hcdown := countP_append_f s.votes nv
            (fun w => w.commentId == some C.id && w.type == "downvote")
            (by simp [hnvdef, hup])
          rw [if_pos (by simp), hup, show fieldOf "upvote" = "upvotes" from rfl,
            cfoldl_up_delta] at hC'eq
          rw [hC'eq]
          refine ⟨hCid0, ?_, ?_⟩ <;> dsimp only <;> omega
        · have hcup := countP_append_f s.votes nv
            (fun w => w.commentId == some C.id && w.type == "upvote")
            (by simp [hnvdef, hdown])
          have hcdown := countP_append_t s.votes nv
            (fun w => w.commentId == some C.id && w.type == "downvote")
            (by simp [hnvdef, hceq, hdown])
          rw [if_pos (by simp), hdown, show fieldOf "downvote" = "downvotes" from rfl,
            cfoldl_down_delta] at hC'eq
          rw [hC'eq]
          refine ⟨hCid0, ?_, ?_⟩ <;> dsimp only <;> omega
      · have hnec : ¬ (c = C.id) := fun hh => hidc hh.symm
        have hcup := countP_append_f s.votes nv
          (fun w => w.commentId == some C.id && w.type == "upvote")
          (by simp [hnvdef, hceq, hnec])
        have hcdown := countP_append_f s.votes nv
          (fun w => w.commentId == some C.id && w.type == "downvote")
          (by simp [hnvdef, hceq, hnec])
        rw [if_neg (by simp [hidc])] at hC'eq
        rw [hC'eq]
        exact ⟨hCid0, by omega, by omega⟩
    · rw [if_neg htr] at hC'
      simp only [Bool.not_eq_true] at htr
      obtain ⟨hCid0, hCup, hCdown⟩ := hcomments C' hC'
      simp only [commentVoteCount] at hCup hCdown
      simp only [commentVoteCount]
      have hfalse : (nv.commentId == some C'.id) = false := by
        rcases truthy_eq_false htr with hnone | hzero
        · simp [hnvdef, hnone]
        · have : ¬ ((0 : Nat) = C'.id) := fun hh => hCid0 hh.symm
          simp [hnvdef, hzero, this]
      have hcup := countP_append_f s.votes nv
        (fun w => w.commentId == some C'.id && w.type == "upvote") (by simp [hfalse])
      have hcdown := countP_append_f s.votes nv
        (fun w => w.commentId == some C'.id && w.type == "downvote") (by simp [hfalse])
      exact ⟨hCid0, by omega, by omega⟩


theorem getVote_mem {s : DbState} {V : String} {p c : Option Nat} {ev : Vote}
    (hg : getVote s V p c = some ev) : ev ∈ s.votes := by
  unfold getVote at hg
  exact List.mem_of_find?_eq_some hg

theorem consistent_castVote {s : DbState} (V : String) (body : VoteBody)
    (h : Consistent s) (ht : validType body.type) :
    Consistent (castVote s V body).2 := by
  unfold castVote
  cases hg : getVote s V body.postId body.commentId with
  | some ev =>
    have hmem : ev ∈ s.votes := getVote_mem hg
    dsimp only
    by_cases heq : (ev.type == body.type) = true
    · rw [if_pos heq]
      exact consistent_deleteVote ⟨h.1, h.2.1, h.2.2.1, h.2.2.2.1, h.2.2.2.2⟩ hmem
    · rw [if_neg heq]
      have hne : ev.type ≠ body.type := by
        intro hcontra
        exact heq (by simp [hcontra])
      exact consistent_updateVote h hmem ht hne
  | none =>
    dsimp only
    cases hc : createVote s { userId := V, postId := body.postId,
                              commentId := body.commentId, type := body.type } with
    | ok r =>
      obtain ⟨nv, s2⟩ := r
      exact consistent_createVote h ht hc
    | error e => exact h

theorem consistent_runOps {s : DbState} {ops : List (String × VoteBody)}
    (h : Consistent s) (hops : ∀ op ∈ ops, validType op.2.type) :
    Consistent (runOps s ops) := by
  induction ops generalizing s with
  | nil => exact h
  | cons op tl ih =>
    rw [show runOps s (op :: tl) = runOps (castVote s op.1 op.2).2 tl from rfl]
    exact ih (consistent_castVote op.1 op.2 h (hops op (List.mem_cons_self op tl)))
      (fun o ho => hops o (List.mem_cons_of_mem op ho))


theorem mkBody_fields (tgt : TargetRef) (d : String) :
    mkBody tgt d = { postId := tgt.postIdOpt, commentId := tgt.commentIdOpt, type := d } := by
  cases tgt <;> rfl

theorem voteMatches_eq_isPair {tgt : TargetRef} (V : String) (hid : tgt.tid ≠ 0) :
    voteMatches V tgt.postIdOpt tgt.commentIdOpt = isPairVote V tgt := by
  funext v
  cases tgt with
  | post p =>
    have hp : (p != 0) = true := by simpa [TargetRef.tid] using hid
    simp [voteMatches, isPairVote, TargetRef.postIdOpt, TargetRef.commentIdOpt, truthy, hp]
  | comment c =>
    have hc : (c != 0) = true := by simpa [TargetRef.tid] using hid
    simp [voteMatches, isPairVote, TargetRef.postIdOpt, TargetRef.commentIdOpt, truthy, hc]

theorem isPair_retype (V : String) (tgt : TargetRef) (v : Vote) (d : String) :
    isPairVote V tgt { v with type := d } = isPairVote V tgt v := by
  cases tgt <;> simp [isPairVote]

theorem pairCount_step {s : DbState} {V : String} {tgt : TargetRef} (d : String)
    (hid : tgt.tid ≠ 0) (h1 : pairVoteCount s V tgt ≤ 1) :
    pairVoteCount (castVote s V (mkBody tgt d)).2 V tgt ≤ 1 := by
  rw [mkBody_fields tgt d]
  unfold castVote
  cases hg : getVote s V tgt.postIdOpt tgt.commentIdOpt with
  | some ev =>
    dsimp only
    by_cases heq : (ev.type == d) = true
    · rw [if_pos heq]
      unfold pairVoteCount at h1 ⊢
      unfold deleteVote
      cases hf : s.votes.find? (fun v => v.id == ev.id) with
      | none => exact h1
      | some w =>
        dsimp only
        calc (s.votes.filter (fun x => !(x.id == ev.id))).countP (isPairVote V tgt)
            ≤ s.votes.countP (isPairVote V tgt) := (List.filter_sublist s.votes).countP_le _
          _ ≤ 1 := h1
    · rw [if_neg heq]
      unfold pairVoteCount at h1 ⊢
      unfold updateVote
      cases hf : s.votes.find? (fun v => v.id == ev.id) with
      | none => exact h1
      | some w =>
        dsimp only
        rw [List.countP_map]
        have hpt : ∀ v ∈ s.votes,
            (isPairVote V tgt (if v.id == ev.id then { v with type := d } else v))
              = isPairVote V tgt v := by
          intro v hv
          by_cases hvid : (v.id == ev.id) = true
          · rw [if_pos hvid, isPair_retype]
          · rw [if_neg hvid]
        calc s.votes.countP
              ((isPairVote V tgt) ∘ fun v => if v.id == ev.id then { v with type := d } else v)
            = s.votes.countP (isPairVote V tgt) :=
              List.countP_congr (fun a ha => by
                simp only [Function.comp_apply]
                rw [hpt a ha])
          _ ≤ 1 := h1
  | none =>
    dsimp only
    by_cases hfk : fkOk s { userId := V, postId := tgt.postIdOpt,
                            commentId := tgt.commentIdOpt, type := d } = true
    · rw [createVote_eq hfk]
      dsimp only
      unfold pairVoteCount
      dsimp only
      have hzero : s.votes.countP (isPairVote V tgt) = 0 := by
        apply List.countP_eq_zero.mpr
        intro v hv
        have := List.find?_eq_none.mp (by unfold getVote at hg; exact hg) v hv
        rw [voteMatches_eq_isPair V hid] at this
        simpa using this
      rw [List.countP_append, hzero]
      simp [List.countP_cons]
      split <;> omega
    · rw [createVote_err (by revert hfk; cases fkOk s _ <;> simp)]
      exact h1

/-- C3: for a fixed voter V and fixed target T with a nonzero id (serial
keys start at 1), a finite sequence of `POST /api/votes` requests by V
for T — with arbitrary direction strings — executed sequentially from a
state holding at most one vote row for the (V, T) pair leaves at most
one vote row for that pair. -/
theorem at_most_one_vote_invariant (s0 : DbState) (V : String) (tgt : TargetRef)
    (ds : List String) (hid : tgt.tid ≠ 0) (h0 : pairVoteCount s0 V tgt ≤ 1) :
    pairVoteCount (runOps s0 (ds.map (fun d => (V, mkBody tgt d)))) V tgt ≤ 1 := by
  induction ds generalizing s0 with
  | nil => exact h0
  | cons d tl ih =>
    rw [List.map_cons]
    rw [show runOps s0 ((V, mkBody tgt d) :: tl.map (fun d => (V, mkBody tgt d)))
          = runOps (castVote s0 V (mkBody tgt d)).2 (tl.map (fun d => (V, mkBody tgt d)))
        from rfl]
    exact ih _ (pairCount_step d hid h0)

/-- C3 witness: a concrete three-request toggle sequence by one voter on
post 1, starting from the empty vote table, ends with at most one row
for the pair. -/
theorem at_most_one_vote_invariant_witness :
    pairVoteCount
      (runOps { votes := [], posts := [{ id := 1, upvotes := 0, downvotes := 0 }],
                comments := [], nextVoteId := 1 }
        (["upvote", "upvote", "downvote"].map
          (fun d => ("alice", mkBody (TargetRef.post 1) d))))
      "alice" (TargetRef.post 1) ≤ 1 :=
  at_most_one_vote_invariant _ "alice" (TargetRef.post 1) ["upvote", "upvote", "downvote"]
    (by decide) (by decide)


/-- C4: starting from a consistent database state, any finite sequence of
protocol vote operations (direction "upvote" or "downvote", any voters,
any request bodies) leaves every post's and comment's denormalized
counters equal to the number of vote rows of the matching type that
reference it. -/
theorem counter_consistency_invariant (s0 : DbState) (ops : List (String × VoteBody))
    (h0 : Consistent s0) (hops : ∀ op ∈ ops, validType op.2.type) :
    (∀ P ∈ (runOps s0 ops).posts,
        P.upvotes = (postVoteCount (runOps s0 ops).votes P.id "upvote" : Int) ∧
        P.downvotes = (postVoteCount (runOps s0 ops).votes P.id "downvote" : Int)) ∧
    (∀ C ∈ (runOps s0 ops).comments,
        C.upvotes = (commentVoteCount (runOps s0 ops).votes C.id "upvote" : Int) ∧
        C.downvotes = (commentVoteCount (runOps s0 ops).votes C.id "downvote" : Int)) := by
  have h := consistent_runOps h0 hops
  exact ⟨fun P hP => ⟨(h.2.2.2.1 P hP).2.1, (h.2.2.2.1 P hP).2.2⟩,
         fun C hC => ⟨(h.2.2.2.2 C hC).2.1, (h.2.2.2.2 C hC).2.2⟩⟩

/-- C4 witness: one upvote and one downvote by different voters on post 1
(which also carries comment 1) leave the counters equal to the per-type
row counts. -/
theorem counter_consistency_invariant_witness :
    (∀ P ∈ (runOps { votes := [], posts := [{ id := 1, upvotes := 0, downvotes := 0 }], comments := [{ id := 1, upvotes := 0, downvotes := 0 }], nextVoteId := 1 } [("alice", { postId := some 1, commentId := none, type := "upvote" }), ("bob", { postId := some 1, commentId := none, type := "downvote" }), ("alice", { postId := none, commentId := some 1, type := "upvote" })]).posts,
        P.upvotes = (postVoteCount (runOps { votes := [], posts := [{ id := 1, upvotes := 0, downvotes := 0 }], comments := [{ id := 1, upvotes := 0, downvotes := 0 }], nextVoteId := 1 } [("alice", { postId := some 1, commentId := none, type := "upvote" }), ("bob", { postId := some 1, commentId := none, type := "downvote" }), ("alice", { postId := none, commentId := some 1, type := "upvote" })]).votes P.id "upvote" : Int) ∧
        P.downvotes = (postVoteCount (runOps { votes := [], posts := [{ id := 1, upvotes := 0, downvotes := 0 }], comments := [{ id := 1, upvotes := 0, downvotes := 0 }], nextVoteId := 1 } [("alice", { postId := some 1, commentId := none, type := "upvote" }), ("bob", { postId := some 1, commentId := none, type := "downvote" }), ("alice", { postId := none, commentId := some 1, type := "upvote" })]).votes P.id "downvote" : Int)) ∧
    (∀ C ∈ (runOps { votes := [], posts := [{ id := 1, upvotes := 0, downvotes := 0 }], comments := [{ id := 1, upvotes := 0, downvotes := 0 }], nextVoteId := 1 } [("alice", { postId := some 1, commentId := none, type := "upvote" }), ("bob", { postId := some 1, commentId := none, type := "downvote" }), ("alice", { postId := none, commentId := some 1, type := "upvote" })]).comments,
        C.upvotes = (commentVoteCount (runOps { votes := [], posts := [{ id := 1, upvotes := 0, downvotes := 0 }], comments := [{ id := 1, upvotes := 0, downvotes := 0 }], nextVoteId := 1 } [("alice", { postId := some 1, commentId := none, type := "upvote" }), ("bob", { postId := some 1, commentId := none, type := "downvote" }), ("alice", { postId := none, commentId := some 1, type := "upvote" })]).votes C.id "upvote" : Int) ∧
        C.downvotes = (commentVoteCount (runOps { votes := [], posts := [{ id := 1, upvotes := 0, downvotes := 0 }], comments := [{ id := 1, upvotes := 0, downvotes := 0 }], nextVoteId := 1 } [("alice", { postId := some 1, commentId := none, type := "upvote" }), ("bob", { postId := some 1, commentId := none, type := "downvote" }), ("alice", { postId := none, commentId := some 1, type := "upvote" })]).votes C.id "downvote" : Int)) :=
  counter_consistency_invariant { votes := [], posts := [{ id := 1, upvotes := 0, downvotes := 0 }], comments := [{ id := 1, upvotes := 0, downvotes := 0 }], nextVoteId := 1 } [("alice", { postId := some 1, commentId := none, type := "upvote" }), ("bob", { postId := some 1, commentId := none, type := "downvote" }), ("alice", { postId := none, commentId := some 1, type := "upvote" })]
    (by refine ⟨?_, ?_, ?_, ?_, ?_⟩ <;> decide)
    (by decide)


/-- C5: from an initial state with empty vote table and all counters at
zero (and serial target ids), no sequence of valid vote operations can
drive any counter negative. -/
theorem counter_nonnegativity (s0 : DbState) (ops : List (String × VoteBody))
    (hv : s0.votes = [])
    (hp : ∀ P ∈ s0.posts, P.id ≠ 0 ∧ P.upvotes = 0 ∧ P.downvotes = 0)
    (hc : ∀ C ∈ s0.comments, C.id ≠ 0 ∧ C.upvotes = 0 ∧ C.downvotes = 0)
    (hops : ∀ op ∈ ops, validType op.2.type) :
    (∀ P ∈ (runOps s0 ops).posts, 0 ≤ P.upvotes ∧ 0 ≤ P.downvotes) ∧
    (∀ C ∈ (runOps s0 ops).comments, 0 ≤ C.upvotes ∧ 0 ≤ C.downvotes) := by
  have h0 : Consistent s0 := by
    refine ⟨?_, ?_, ?_, ?_, ?_⟩
    · intro v hv2
      rw [hv] at hv2
      cases hv2
    · intro v hv2
      rw [hv] at hv2
      cases hv2
    · rw [hv]
      exact List.Pairwise.nil
    · intro P hP
      obtain ⟨h1, h2, h3⟩ := hp P hP
      refine ⟨h1, ?_, ?_⟩ <;> simp [postVoteCount, hv, h2, h3]
    · intro C hC
      obtain ⟨h1, h2, h3⟩ := hc C hC
      refine ⟨h1, ?_, ?_⟩ <;> simp [commentVoteCount, hv, h2, h3]
  have h := consistent_runOps h0 hops
  constructor
  · intro P hP
    obtain ⟨-, h2, h3⟩ := h.2.2.2.1 P hP
    rw [h2, h3]
    exact ⟨Int.natCast_nonneg _, Int.natCast_nonneg _⟩
  · intro C hC
    obtain ⟨-, h2, h3⟩ := h.2.2.2.2 C hC
    rw [h2, h3]
    exact ⟨Int.natCast_nonneg _, Int.natCast_nonneg _⟩

/-- C5 witness: the scenario-A toggle plus a switch, run from the zeroed
initial state, leaves both counters of post 1 non-negative. -/
theorem counter_nonnegativity_witness :
    (∀ P ∈ (runOps { votes := [], posts := [{ id := 1, upvotes := 0, downvotes := 0 }],
                     comments := [], nextVoteId := 1 }
              [("alice", { postId := some 1, commentId := none, type := "upvote" }),
               ("alice", { postId := some 1, commentId := none, type := "upvote" }),
               ("alice", { postId := some 1, commentId := none, type := "downvote" })]).posts,
        0 ≤ P.upvotes ∧ 0 ≤ P.downvotes) ∧
    (∀ C ∈ (runOps { votes := [], posts := [{ id := 1, upvotes := 0, downvotes := 0 }],
                     comments := [], nextVoteId := 1 }
              [("alice", { postId := some 1, commentId := none, type := "upvote" }),
               ("alice", { postId := some 1, commentId := none, type := "upvote" }),
               ("alice", { postId := some 1, commentId := none, type := "downvote" })]).comments,
        0 ≤ C.upvotes ∧ 0 ≤ C.downvotes) :=
  counter_nonnegativity
    { votes := [], posts := [{ id := 1, upvotes := 0, downvotes := 0 }],
      comments := [], nextVoteId := 1 }
    [("alice", { postId := some 1, commentId := none, type := "upvote" }),
     ("alice", { postId := some 1, commentId := none, type := "upvote" }),
     ("alice", { postId := some 1, commentId := none, type := "downvote" })]
    rfl (by decide) (by decide) (by decide)


theorem applyDelta_id (P : Post) (fd : String × Int) : (P.applyDelta fd).id = P.id := by
  unfold Post.applyDelta
  by_cases h : (fd.1 == "upvotes") = true <;> simp [h]

theorem capplyDelta_id (C : Comment) (fd : String × Int) : (C.applyDelta fd).id = C.id := by
  unfold Comment.applyDelta
  by_cases h : (fd.1 == "upvotes") = true <;> simp [h]

theorem foldl_applyDelta_id (deltas : List (String × Int)) (P : Post) :
    (deltas.foldl Post.applyDelta P).id = P.id := by
  induction deltas generalizing P with
  | nil => rfl
  | cons d tl ih => rw [List.foldl_cons, ih, applyDelta_id]

theorem cfoldl_applyDelta_id (deltas : List (String × Int)) (C : Comment) :
    (deltas.foldl Comment.applyDelta C).id = C.id := by
  induction deltas generalizing C with
  | nil => rfl
  | cons d tl ih => rw [List.foldl_cons, ih, capplyDelta_id]

theorem updatePosts_cancel (ps : List Post) (p : Nat) (f : String) :
    updatePosts (updatePosts ps p [(f, (1 : Int))]) p [(f, (-1 : Int))] = ps := by
  unfold updatePosts
  rw [List.map_map]
  have hpt : ∀ P : Post,
      ((fun P => if P.id == p then [((f : String), (-1 : Int))].foldl Post.applyDelta P else P) ∘
        (fun P => if P.id == p then [((f : String), (1 : Int))].foldl Post.applyDelta P else P)) P
        = P := by
    intro P
    by_cases hp : (P.id == p) = true
    · simp only [Function.comp_apply, hp, if_true]
      rw [if_pos (by rw [foldl_applyDelta_id]; exact hp)]
      by_cases hf : (f == "upvotes") = true
      · simp only [List.foldl_cons, List.foldl_nil, Post.applyDelta, hf, if_true]
        rw [show P.upvotes + 1 + -1 = P.upvotes from by omega]
      · simp only [List.foldl_cons, List.foldl_nil, Post.applyDelta, hf,
          Bool.false_eq_true, if_false]
        rw [show P.downvotes + 1 + -1 = P.downvotes from by omega]
    · simp only [Function.comp_apply, hp, Bool.false_eq_true, if_false]
  rw [List.map_congr_left (fun a _ => hpt a), List.map_id' ps]

theorem updateComments_cancel (cs : List Comment) (c : Nat) (f : String) :
    updateComments (updateComments cs c [(f, (1 : Int))]) c [(f, (-1 : Int))] = cs := by
  unfold updateComments
  rw [List.map_map]
  have hpt : ∀ C : Comment,
      ((fun C => if C.id == c then [((f : String), (-1 : Int))].foldl Comment.applyDelta C else C) ∘
        (fun C => if C.id == c then [((f : String), (1 : Int))].foldl Comment.applyDelta C else C)) C
        = C := by
    intro C
    by_cases hc : (C.id == c) = true
    · simp only [Function.comp_apply, hc, if_true]
      rw [if_pos (by rw [cfoldl_applyDelta_id]; exact hc)]
      by_cases hf : (f == "upvotes") = true
      · simp only [List.foldl_cons, List.foldl_nil, Comment.applyDelta, hf, if_true]
        rw [show C.upvotes + 1 + -1 = C.upvotes from by omega]
      · simp only [List.foldl_cons, List.foldl_nil, Comment.applyDelta, hf,
          Bool.false_eq_true, if_false]
        rw [show C.downvotes + 1 + -1 = C.downvotes from by omega]
    · simp only [Function.comp_apply, hc, Bool.false_eq_true, if_false]
  rw [List.map_congr_left (fun a _ => hpt a), List.map_id' cs]


theorem castVote_append_same (vts : List Vote) (P1 : List Post) (C1 : List Comment)
    (n : Nat) (V : String) (body : VoteBody) (nv : Vote)
    (hnvu : nv.userId = V) (hnvp : nv.postId = body.postId)
    (hnvc : nv.commentId = body.commentId) (hnvt : nv.type = body.type) (hnvi : nv.id = n)
    (hgnone : vts.find? (voteMatches V body.postId body.commentId) = none)
    (hfresh : ∀ v ∈ vts, v.id ≠ n) :
    castVote { votes := vts ++ [nv], posts := P1, comments := C1, nextVoteId := n + 1 } V body
      = ((200, removedMsg),
         { votes := vts,
           posts := if truthy nv.postId then
               updatePosts P1 (nv.postId.getD 0) [(fieldOf nv.type, -1)]
             else P1,
           comments := if truthy nv.commentId then
               updateComments C1 (nv.commentId.getD 0) [(fieldOf nv.type, -1)]
             else C1,
           nextVoteId := n + 1 }) := by
  have hmatch : voteMatches V body.postId body.commentId nv = true := by
    by_cases hp : truthy body.postId = true <;> by_cases hc : truthy body.commentId = true <;>
      simp [voteMatches, hnvu, hnvp, hnvc, hp, hc]
  have hg2 : getVote { votes := vts ++ [nv], posts := P1, comments := C1,
                       nextVoteId := n + 1 } V body.postId body.commentId = some nv := by
    unfold getVote
    dsimp only
    rw [List.find?_append, hgnone]
    simp [List.find?_cons, hmatch]
  unfold castVote
  rw [hg2]
  dsimp only
  rw [if_pos (by simp [hnvt])]
  have hfnone : vts.find? (fun v => v.id == nv.id) = none := by
    apply List.find?_eq_none.mpr
    intro v hv
    simp [hnvi, hfresh v hv]
  have hfdel : (vts ++ [nv]).find? (fun v => v.id == nv.id) = some nv := by
    rw [List.find?_append, hfnone]
    simp [List.find?_cons]
  unfold deleteVote
  dsimp only
  rw [hfdel]
  dsimp only
  have hfilter : (vts ++ [nv]).filter (fun w => !(w.id == nv.id)) = vts := by
    rw [List.filter_append]
    rw [List.filter_eq_self.mpr (fun a ha => by simp [hnvi, hfresh a ha])]
    simp
  rw [hfilter]

/-- C1 (amended): for a voter with no existing vote matching the lookup
filter, two consecutive same-direction requests answer HTTP 200 with the
created vote row first and the `\x7b message: "Vote removed" \x7d` body second
(not `status` objects), and the composition restores the vote table and
every post and comment counter to their values before the first call. -/
theorem idempotent_toggle (s : DbState) (V : String) (body : VoteBody)
    (_hval : validType body.type)
    (hg : getVote s V body.postId body.commentId = none)
    (hfk : fkOk s { userId := V, postId := body.postId, commentId := body.commentId,
                    type := body.type } = true)
    (hfresh : ∀ v ∈ s.votes, v.id ≠ s.nextVoteId) :
    (castVote s V body).1
        = (200, voteToJson { id := s.nextVoteId, userId := V, postId := body.postId,
                             commentId := body.commentId, type := body.type }) ∧
    (castVote (castVote s V body).2 V body).1 = (200, removedMsg) ∧
    (castVote (castVote s V body).2 V body).2.votes = s.votes ∧
    (castVote (castVote s V body).2 V body).2.posts = s.posts ∧
    (castVote (castVote s V body).2 V body).2.comments = s.comments := by
  have hgnone : s.votes.find? (voteMatches V body.postId body.commentId) = none := by
    unfold getVote at hg
    exact hg
  have h1 : castVote s V body
      = ((200, voteToJson { id := s.nextVoteId, userId := V, postId := body.postId,
                            commentId := body.commentId, type := body.type }),
         { votes := s.votes ++ [{ id := s.nextVoteId, userId := V, postId := body.postId,
                                  commentId := body.commentId, type := body.type }],
           posts := if truthy body.postId then
               updatePosts s.posts (body.postId.getD 0) [(fieldOf body.type, 1)]
             else s.posts,
           comments := if truthy body.commentId then
               updateComments s.comments (body.commentId.getD 0) [(fieldOf body.type, 1)]
             else s.comments,
           nextVoteId := s.nextVoteId + 1 }) := by
    unfold castVote
    rw [hg]
    dsimp only
    rw [createVote_eq hfk]
  rw [h1]
  dsimp only
  refine ⟨rfl, ?_⟩
  rw [castVote_append_same s.votes _ _ s.nextVoteId V body _ rfl rfl rfl rfl rfl
    hgnone hfresh]
  dsimp only
  refine ⟨rfl, rfl, ?_, ?_⟩
  · by_cases hp : truthy body.postId = true
    · simp only [hp, if_true]
      exact updatePosts_cancel s.posts (body.postId.getD 0) (fieldOf body.type)
    · simp only [hp, Bool.false_eq_true, if_false]
  · by_cases hc : truthy body.commentId = true
    · simp only [hc, if_true]
      exact updateComments_cancel s.comments (body.commentId.getD 0) (fieldOf body.type)
    · simp only [hc, Bool.false_eq_true, if_false]


/-- C1 counterexample: on the scenario-A inputs both calls succeed with
HTTP 200, but neither response body carries a `status` field at all — the
first is the vote row and the second is the removal message — so the
claimed `status:"added"` / `status:"removed"` responses do not occur. -/
theorem idempotent_toggle_counterexample :
    (castVote { votes := [], posts := [{ id := 1, upvotes := 0, downvotes := 0 }], comments := [], nextVoteId := 1 } "alice" { postId := some 1, commentId := none, type := "upvote" }).1.1 = 200 ∧
    ((castVote { votes := [], posts := [{ id := 1, upvotes := 0, downvotes := 0 }], comments := [], nextVoteId := 1 } "alice" { postId := some 1, commentId := none, type := "upvote" }).1.2).getField "status" = none ∧
    (castVote (castVote { votes := [], posts := [{ id := 1, upvotes := 0, downvotes := 0 }], comments := [], nextVoteId := 1 } "alice" { postId := some 1, commentId := none, type := "upvote" }).2 "alice" { postId := some 1, commentId := none, type := "upvote" }).1.1 = 200 ∧
    ((castVote (castVote { votes := [], posts := [{ id := 1, upvotes := 0, downvotes := 0 }], comments := [], nextVoteId := 1 } "alice" { postId := some 1, commentId := none, type := "upvote" }).2 "alice" { postId := some 1, commentId := none, type := "upvote" }).1.2).getField "status" = none ∧
    (castVote (castVote { votes := [], posts := [{ id := 1, upvotes := 0, downvotes := 0 }], comments := [], nextVoteId := 1 } "alice" { postId := some 1, commentId := none, type := "upvote" }).2 "alice" { postId := some 1, commentId := none, type := "upvote" }).1.2 = removedMsg :=
  ⟨rfl, rfl, rfl, rfl, rfl⟩

/-- C1 witness: the amended theorem applied to scenario A (post 1,
upvote twice from the empty vote table). -/
theorem idempotent_toggle_witness :
    (castVote { votes := [], posts := [{ id := 1, upvotes := 0, downvotes := 0 }], comments := [], nextVoteId := 1 } "alice" { postId := some 1, commentId := none, type := "upvote" }).1
        = (200, voteToJson { id := 1, userId := "alice", postId := some 1,
                             commentId := none, type := "upvote" }) ∧
    (castVote (castVote { votes := [], posts := [{ id := 1, upvotes := 0, downvotes := 0 }], comments := [], nextVoteId := 1 } "alice" { postId := some 1, commentId := none, type := "upvote" }).2 "alice" { postId := some 1, commentId := none, type := "upvote" }).1 = (200, removedMsg) ∧
    (castVote (castVote { votes := [], posts := [{ id := 1, upvotes := 0, downvotes := 0 }], comments := [], nextVoteId := 1 } "alice" { postId := some 1, commentId := none, type := "upvote" }).2 "alice" { postId := some 1, commentId := none, type := "upvote" }).2.votes = ({ votes := [], posts := [{ id := 1, upvotes := 0, downvotes := 0 }], comments := [], nextVoteId := 1 } : DbState).votes ∧
    (castVote (castVote { votes := [], posts := [{ id := 1, upvotes := 0, downvotes := 0 }], comments := [], nextVoteId := 1 } "alice" { postId := some 1, commentId := none, type := "upvote" }).2 "alice" { postId := some 1, commentId := none, type := "upvote" }).2.posts = ({ votes := [], posts := [{ id := 1, upvotes := 0, downvotes := 0 }], comments := [], nextVoteId := 1 } : DbState).posts ∧
    (castVote (castVote { votes := [], posts := [{ id := 1, upvotes := 0, downvotes := 0 }], comments := [], nextVoteId := 1 } "alice" { postId := some 1, commentId := none, type := "upvote" }).2 "alice" { postId := some 1, commentId := none, type := "upvote" }).2.comments = ({ votes := [], posts := [{ id := 1, upvotes := 0, downvotes := 0 }], comments := [], nextVoteId := 1 } : DbState).comments :=
  idempotent_toggle { votes := [], posts := [{ id := 1, upvotes := 0, downvotes := 0 }], comments := [], nextVoteId := 1 } "alice" { postId := some 1, commentId := none, type := "upvote" } (Or.inl rfl) rfl rfl (by decide)


theorem find?_updatePosts (ps : List Post) (p : Nat) (deltas : List (String × Int)) :
    (updatePosts ps p deltas).find? (fun P => P.id == p)
      = (ps.find? (fun P => P.id == p)).map (fun P => deltas.foldl Post.applyDelta P) := by
  induction ps with
  | nil => rfl
  | cons P tl ih =>
    unfold updatePosts at ih ⊢
    by_cases hp : (P.id == p) = true
    · rw [List.map_cons, if_pos hp]
      rw [List.find?_cons_of_pos _ (by rw [foldl_applyDelta_id]; exact hp)]
      rw [show (P :: tl).find? (fun P => P.id == p) = some P from List.find?_cons_of_pos _ hp]
      rfl
    · rw [List.map_cons, if_neg hp]
      rw [List.find?_cons_of_neg _ (by simp [hp]), List.find?_cons_of_neg _ (by simp [hp])]
      exact ih

theorem find?_updateComments (cs : List Comment) (c : Nat) (deltas : List (String × Int)) :
    (updateComments cs c deltas).find? (fun C => C.id == c)
      = (cs.find? (fun C => C.id == c)).map (fun C => deltas.foldl Comment.applyDelta C) := by
  induction cs with
  | nil => rfl
  | cons C tl ih =>
    unfold updateComments at ih ⊢
    by_cases hc : (C.id == c) = true
    · rw [List.map_cons, if_pos hc]
      rw [List.find?_cons_of_pos _ (by rw [cfoldl_applyDelta_id]; exact hc)]
      rw [show (C :: tl).find? (fun C => C.id == c) = some C from List.find?_cons_of_pos _ hc]
      rfl
    · rw [List.map_cons, if_neg hc]
      rw [List.find?_cons_of_neg _ (by simp [hc]), List.find?_cons_of_neg _ (by simp [hc])]
      exact ih

theorem castVote_append_diff (vts : List Vote) (P1 : List Post) (C1 : List Comment)
    (n : Nat) (V : String) (body2 : VoteBody) (nv : Vote)
    (hnvu : nv.userId = V) (hnvp : nv.postId = body2.postId)
    (hnvc : nv.commentId = body2.commentId) (hnvt : (nv.type == body2.type) = false)
    (hnvi : nv.id = n)
    (hgnone : vts.find? (voteMatches V body2.postId body2.commentId) = none)
    (hfresh : ∀ v ∈ vts, v.id ≠ n) :
    castVote { votes := vts ++ [nv], posts := P1, comments := C1, nextVoteId := n + 1 } V body2
      = ((200, voteToJson { nv with type := body2.type }),
         { votes := vts ++ [{ nv with type := body2.type }],
           posts := if truthy nv.postId then
               updatePosts P1 (nv.postId.getD 0) (updObj (fieldOf nv.type) (fieldOf body2.type))
             else P1,
           comments := if truthy nv.commentId then
               updateComments C1 (nv.commentId.getD 0)
                 (updObj (fieldOf nv.type) (fieldOf body2.type))
             else C1,
           nextVoteId := n + 1 }) := by
  have hmatch : voteMatches V body2.postId body2.commentId nv = true := by
    by_cases hp : truthy body2.postId = true <;> by_cases hc : truthy body2.commentId = true <;>
      simp [voteMatches, hnvu, hnvp, hnvc, hp, hc]
  have hg2 : getVote { votes := vts ++ [nv], posts := P1, comments := C1,
                       nextVoteId := n + 1 } V body2.postId body2.commentId = some nv := by
    unfold getVote
    dsimp only
    rw [List.find?_append, hgnone]
    simp [List.find?_cons, hmatch]
  unfold castVote
  rw [hg2]
  dsimp only
  rw [if_neg (by simp [hnvt])]
  have hfnone : vts.find? (fun v => v.id == nv.id) = none := by
    apply List.find?_eq_none.mpr
    intro v hv
    simp [hnvi, hfresh v hv]
  have hffound : (vts ++ [nv]).find? (fun v => v.id == nv.id) = some nv := by
    rw [List.find?_append, hfnone]
    simp [List.find?_cons]
  unfold updateVote
  rw [hffound]
  dsimp only
  have hmap : (vts ++ [nv]).map
      (fun w => if w.id == nv.id then { w with type := body2.type } else w)
      = vts ++ [{ nv with type := body2.type }] := by
    rw [List.map_append]
    rw [show vts.map (fun w => if w.id == nv.id then { w with type := body2.type } else w)
          = vts.map (fun w => w) from
        List.map_congr_left (fun a ha => by simp [hnvi, hfresh a ha])]
    rw [List.map_id' vts]
    simp
  rw [hmap]
  have hfind2 : (vts ++ [{ nv with type := body2.type }]).find? (fun w => w.id == nv.id)
      = some { nv with type := body2.type } := by
    rw [List.find?_append, hfnone]
    simp [List.find?_cons]
  rw [hfind2]


/-- C2 (amended): with no existing matching vote, casting d1 then the
opposite d2 on an existing target adds one to the d1 counter first; the
second call switches the vote, answering HTTP 200 with the updated vote
row bearing the new direction (not a `status` object), and across that
second call the d1 counter drops by one and the d2 counter rises by one,
so their sum is conserved across the switch — but relative to the state
before the first call the sum has grown by one. -/
theorem switch_semantics (s : DbState) (V : String) (tgt : TargetRef) (d1 d2 : String)
    (u0 v0 : Int)
    (hd : (d1 = "upvote" ∧ d2 = "downvote") ∨ (d1 = "downvote" ∧ d2 = "upvote"))
    (hid : tgt.tid ≠ 0)
    (hg : getVote s V tgt.postIdOpt tgt.commentIdOpt = none)
    (hfk : fkOk s { userId := V, postId := tgt.postIdOpt, commentId := tgt.commentIdOpt,
                    type := d1 } = true)
    (hfresh : ∀ v ∈ s.votes, v.id ≠ s.nextVoteId)
    (hu0 : targetUp s tgt = some u0) (hv0 : targetDown s tgt = some v0) :
    (castVote (castVote s V (mkBody tgt d1)).2 V (mkBody tgt d2)).1
        = (200, voteToJson { id := s.nextVoteId, userId := V, postId := tgt.postIdOpt,
                             commentId := tgt.commentIdOpt, type := d2 }) ∧
    targetUp (castVote s V (mkBody tgt d1)).2 tgt
        = some (if d1 = "upvote" then u0 + 1 else u0) ∧
    targetDown (castVote s V (mkBody tgt d1)).2 tgt
        = some (if d1 = "upvote" then v0 else v0 + 1) ∧
    targetUp (castVote (castVote s V (mkBody tgt d1)).2 V (mkBody tgt d2)).2 tgt
        = some (if d1 = "upvote" then u0 else u0 + 1) ∧
    targetDown (castVote (castVote s V (mkBody tgt d1)).2 V (mkBody tgt d2)).2 tgt
        = some (if d1 = "upvote" then v0 + 1 else v0) := by
  rw [mkBody_fields tgt d1, mkBody_fields tgt d2]
  have hgnone : s.votes.find? (voteMatches V tgt.postIdOpt tgt.commentIdOpt) = none := by
    unfold getVote at hg
    exact hg
  cases tgt with
  | post p =>
    have hp0 : p ≠ 0 := by simpa [TargetRef.tid] using hid
    have htp : truthy (some p) = true := by simp [truthy, hp0]
    simp only [TargetRef.postIdOpt, TargetRef.commentIdOpt] at hg hgnone hfk hu0 hv0 ⊢
    simp only [targetUp, targetDown] at hu0 hv0
    cases hfind : s.posts.find? (fun P => P.id == p) with
    | none =>
      rw [hfind] at hu0
      cases hu0
    | some P0 =>
      rw [hfind] at hu0 hv0
      simp only [Option.map_some', Option.some.injEq] at hu0 hv0
      rcases hd with ⟨rfl, rfl⟩ | ⟨rfl, rfl⟩
      · have h1c : castVote s V { postId := some p, commentId := none, type := "upvote" }
            = ((200, voteToJson { id := s.nextVoteId, userId := V, postId := some p,
                                  commentId := none, type := "upvote" }),
               { votes := s.votes ++ [{ id := s.nextVoteId, userId := V, postId := some p,
                                        commentId := none, type := "upvote" }],
                 posts := updatePosts s.posts p [("upvotes", 1)],
                 comments := s.comments,
                 nextVoteId := s.nextVoteId + 1 }) := by
          unfold castVote
          dsimp only
          rw [hg]
          dsimp only
          rw [createVote_eq hfk]
          simp [truthy, fieldOf, hp0]
        have h2c := castVote_append_diff s.votes (updatePosts s.posts p [("upvotes", 1)])
          s.comments s.nextVoteId V { postId := some p, commentId := none, type := "downvote" }
          { id := s.nextVoteId, userId := V, postId := some p, commentId := none,
            type := "upvote" }
          rfl rfl rfl rfl rfl hgnone hfresh
        dsimp only at h2c
        rw [h1c]
        dsimp only
        rw [h2c]
        dsimp only
        rw [if_pos htp,
          show updObj (fieldOf "upvote") (fieldOf "downvote")
            = [(("upvotes" : String), (-1 : Int)), ("downvotes", 1)] from rfl]
        simp only [Option.getD_some]
        refine ⟨trivial, ?_, ?_, ?_, ?_⟩
        · simp only [targetUp]
          rw [find?_updatePosts, hfind]
          simp [Post.applyDelta, hu0]
        · simp only [targetDown]
          rw [find?_updatePosts, hfind]
          simp [Post.applyDelta, hv0]
        · simp only [targetUp]
          rw [find?_updatePosts, find?_updatePosts, hfind]
          simp [Post.applyDelta, hu0]
        · simp only [targetDown]
          rw [find?_updatePosts, find?_updatePosts, hfind]
          simp [Post.applyDelta, hv0]
      · have h1c : castVote s V { postId := some p, commentId := none, type := "downvote" }
            = ((200, voteToJson { id := s.nextVoteId, userId := V, postId := some p,
                                  commentId := none, type := "downvote" }),
               { votes := s.votes ++ [{ id := s.nextVoteId, userId := V, postId := some p,
                                        commentId := none, type := "downvote" }],
                 posts := updatePosts s.posts p [("downvotes", 1)],
                 comments := s.comments,
                 nextVoteId := s.nextVoteId + 1 }) := by
          unfold castVote
          dsimp only
          rw [hg]
          dsimp only
          rw [createVote_eq hfk]
          simp [truthy, fieldOf, hp0]
        have h2c := castVote_append_diff s.votes (updatePosts s.posts p [("downvotes", 1)])
          s.comments s.nextVoteId V { postId := some p, commentId := none, type := "upvote" }
          { id := s.nextVoteId, userId := V, postId := some p, commentId := none,
            type := "downvote" }
          rfl rfl rfl rfl rfl hgnone hfresh
        dsimp only at h2c
        rw [h1c]
        dsimp only
        rw [h2c]
        dsimp only
        rw [if_pos htp,
          show updObj (fieldOf "downvote") (fieldOf "upvote")
            = [(("downvotes" : String), (-1 : Int)), ("upvotes", 1)] from rfl]
        simp only [Option.getD_some]
        refine ⟨trivial, ?_, ?_, ?_, ?_⟩
        · simp only [targetUp]
          rw [find?_updatePosts, hfind]
          simp [Post.applyDelta, hu0]
        · simp only [targetDown]
          rw [find?_updatePosts, hfind]
          simp [Post.applyDelta, hv0]
        · simp only [targetUp]
          rw [find?_updatePosts, find?_updatePosts, hfind]
          simp [Post.applyDelta, hu0]
        · simp only [targetDown]
          rw [find?_updatePosts, find?_updatePosts, hfind]
          simp [Post.applyDelta, hv0]
  | comment c =>
    have hc0 : c ≠ 0 := by simpa [TargetRef.tid] using hid
    have htc : truthy (some c) = true := by simp [truthy, hc0]
    simp only [TargetRef.postIdOpt, TargetRef.commentIdOpt] at hg hgnone hfk hu0 hv0 ⊢
    simp only [targetUp, targetDown] at hu0 hv0
    cases hfind : s.comments.find? (fun C => C.id == c) with
    | none =>
      rw [hfind] at hu0
      cases hu0
    | some C0 =>
      rw [hfind] at hu0 hv0
      simp only [Option.map_some', Option.some.injEq] at hu0 hv0
      rcases hd with ⟨rfl, rfl⟩ | ⟨rfl, rfl⟩
      · have h1c : castVote s V { postId := none, commentId := some c, type := "upvote" }
            = ((200, voteToJson { id := s.nextVoteId, userId := V, postId := none,
                                  commentId := some c, type := "upvote" }),
               { votes := s.votes ++ [{ id := s.nextVoteId, userId := V, postId := none,
                                        commentId := some c, type := "upvote" }],
                 posts := s.posts,
                 comments := updateComments s.comments c [("upvotes", 1)],
                 nextVoteId := s.nextVoteId + 1 }) := by
          unfold castVote
          dsimp only
          rw [hg]
          dsimp only
          rw [createVote_eq hfk]
          simp [truthy, fieldOf, hc0]
        have h2c := castVote_append_diff s.votes s.posts
          (updateComments s.comments c [("upvotes", 1)])
          s.nextVoteId V { postId := none, commentId := some c, type := "downvote" }
          { id := s.nextVoteId, userId := V, postId := none, commentId := some c,
            type := "upvote" }
          rfl rfl rfl rfl rfl hgnone hfresh
        dsimp only at h2c
        rw [h1c]
        dsimp only
        rw [h2c]
        dsimp only
        rw [if_pos htc,
          show updObj (fieldOf "upvote") (fieldOf "downvote")
            = [(("upvotes" : String), (-1 : Int)), ("downvotes", 1)] from rfl]
        simp only [Option.getD_some]
        refine ⟨trivial, ?_, ?_, ?_, ?_⟩
        · simp only [targetUp]
          rw [find?_updateComments, hfind]
          simp [Comment.applyDelta, hu0]
        · simp only [targetDown]
          rw [find?_updateComments, hfind]
          simp [Comment.applyDelta, hv0]
        · simp only [targetUp]
          rw [find?_updateComments, find?_updateComments, hfind]
          simp [Comment.applyDelta, hu0]
        · simp only [targetDown]
          rw [find?_updateComments, find?_updateComments, hfind]
          simp [Comment.applyDelta, hv0]
      · have h1c : castVote s V { postId := none, commentId := some c, type := "downvote" }
            = ((200, voteToJson { id := s.nextVoteId, userId := V, postId := none,
                                  commentId := some c, type := "downvote" }),
               { votes := s.votes ++ [{ id := s.nextVoteId, userId := V, postId := none,
                                        commentId := some c, type := "downvote" }],
                 posts := s.posts,
                 comments := updateComments s.comments c [("downvotes", 1)],
                 nextVoteId := s.nextVoteId + 1 }) := by
          unfold castVote
          dsimp only
          rw [hg]
          dsimp only
          rw [createVote_eq hfk]
          simp [truthy, fieldOf, hc0]
        have h2c := castVote_append_diff s.votes s.posts
          (updateComments s.comments c [("downvotes", 1)])
          s.nextVoteId V { postId := none, commentId := some c, type := "upvote" }
          { id := s.nextVoteId, userId := V, postId := none, commentId := some c,
            type := "downvote" }
          rfl rfl rfl rfl rfl hgnone hfresh
        dsimp only at h2c
        rw [h1c]
        dsimp only
        rw [h2c]
        dsimp only
        rw [if_pos htc,
          show updObj (fieldOf "downvote") (fieldOf "upvote")
            = [(("downvotes" : String), (-1 : Int)), ("upvotes", 1)] from rfl]
        simp only [Option.getD_some]
        refine ⟨trivial, ?_, ?_, ?_, ?_⟩
        · simp only [targetUp]
          rw [find?_updateComments, hfind]
          simp [Comment.applyDelta, hu0]
        · simp only [targetDown]
          rw [find?_updateComments, hfind]
          simp [Comment.applyDelta, hv0]
        · simp only [targetUp]
          rw [find?_updateComments, find?_updateComments, hfind]
          simp [Comment.applyDelta, hu0]
        · simp only [targetDown]
          rw [find?_updateComments, find?_updateComments, hfind]
          simp [Comment.applyDelta, hv0]


/-- C2 counterexample: scenario B (post 1 with zeroed counters; "up" then
"down" by the same voter).  After both calls the counters are (0, 1): the
sum rose from 0 to 1 instead of being conserved relative to the state
before the first call, the upvote counter's net change is 0 rather than
±1, and the second response has no `status` field. -/
theorem switch_semantics_counterexample :
    targetUp ({ votes := [], posts := [{ id := 1, upvotes := 0, downvotes := 0 }], comments := [], nextVoteId := 1 } : DbState) (TargetRef.post 1) = some 0 ∧
    targetDown ({ votes := [], posts := [{ id := 1, upvotes := 0, downvotes := 0 }], comments := [], nextVoteId := 1 } : DbState) (TargetRef.post 1) = some 0 ∧
    targetUp (castVote (castVote { votes := [], posts := [{ id := 1, upvotes := 0, downvotes := 0 }], comments := [], nextVoteId := 1 } "alice" { postId := some 1, commentId := none, type := "upvote" }).2 "alice" { postId := some 1, commentId := none, type := "downvote" }).2 (TargetRef.post 1)
      = some 0 ∧
    targetDown (castVote (castVote { votes := [], posts := [{ id := 1, upvotes := 0, downvotes := 0 }], comments := [], nextVoteId := 1 } "alice" { postId := some 1, commentId := none, type := "upvote" }).2 "alice" { postId := some 1, commentId := none, type := "downvote" }).2 (TargetRef.post 1)
      = some 1 ∧
    ¬ ((0 : Int) + 1 = 0 + 0) ∧
    ((castVote (castVote { votes := [], posts := [{ id := 1, upvotes := 0, downvotes := 0 }], comments := [], nextVoteId := 1 } "alice" { postId := some 1, commentId := none, type := "upvote" }).2 "alice" { postId := some 1, commentId := none, type := "downvote" }).1.2).getField "status" = none :=
  ⟨rfl, rfl, rfl, rfl, by decide, rfl⟩

/-- C2 witness: the amended switch theorem applied to scenario B. -/
theorem switch_semantics_witness :
    (castVote (castVote { votes := [], posts := [{ id := 1, upvotes := 0, downvotes := 0 }], comments := [], nextVoteId := 1 } "alice" (mkBody (TargetRef.post 1) "upvote")).2 "alice"
        (mkBody (TargetRef.post 1) "downvote")).1
      = (200, voteToJson { id := 1, userId := "alice", postId := some 1,
                           commentId := none, type := "downvote" }) ∧
    targetUp (castVote { votes := [], posts := [{ id := 1, upvotes := 0, downvotes := 0 }], comments := [], nextVoteId := 1 } "alice" (mkBody (TargetRef.post 1) "upvote")).2
        (TargetRef.post 1) = some 1 ∧
    targetDown (castVote { votes := [], posts := [{ id := 1, upvotes := 0, downvotes := 0 }], comments := [], nextVoteId := 1 } "alice" (mkBody (TargetRef.post 1) "upvote")).2
        (TargetRef.post 1) = some 0 ∧
    targetUp (castVote (castVote { votes := [], posts := [{ id := 1, upvotes := 0, downvotes := 0 }], comments := [], nextVoteId := 1 } "alice" (mkBody (TargetRef.post 1) "upvote")).2 "alice"
        (mkBody (TargetRef.post 1) "downvote")).2 (TargetRef.post 1) = some 0 ∧
    targetDown (castVote (castVote { votes := [], posts := [{ id := 1, upvotes := 0, downvotes := 0 }], comments := [], nextVoteId := 1 } "alice" (mkBody (TargetRef.post 1) "upvote")).2 "alice"
        (mkBody (TargetRef.post 1) "downvote")).2 (TargetRef.post 1) = some 1 :=
  switch_semantics { votes := [], posts := [{ id := 1, upvotes := 0, downvotes := 0 }], comments := [], nextVoteId := 1 } "alice" (TargetRef.post 1) "upvote" "downvote" 0 0
    (Or.inl ⟨rfl, rfl⟩) (by decide) rfl rfl (by decide) rfl rfl


/-- C6 (amended): a vote request whose target ids fail the foreign-key
check (the target rows do not exist) and which matches no existing vote
makes the insert throw; the route's catch block answers HTTP 500 (there
is no 404 branch in the handler), no vote row is created and no state is
mutated. -/
theorem notfound_surfaces_500 (s : DbState) (V : String) (body : VoteBody)
    (hg : getVote s V body.postId body.commentId = none)
    (hfk : fkOk s { userId := V, postId := body.postId, commentId := body.commentId,
                    type := body.type } = false) :
    castVote s V body = ((500, failedMsg), s) := by
  unfold castVote
  rw [hg]
  dsimp only
  rw [createVote_err hfk]

/-- C6 counterexample: voting on the nonexistent post 7 answers HTTP 500,
not the claimed 404 (the state is untouched, as the claim also says). -/
theorem notfound_surfaces_500_counterexample :
    (castVote { votes := [], posts := [{ id := 1, upvotes := 0, downvotes := 0 }], comments := [], nextVoteId := 1 } "alice" { postId := some 7, commentId := none, type := "upvote" }).1.1
      = 500 ∧
    (castVote { votes := [], posts := [{ id := 1, upvotes := 0, downvotes := 0 }], comments := [], nextVoteId := 1 } "alice" { postId := some 7, commentId := none, type := "upvote" }).1.1
      ≠ 404 ∧
    (castVote { votes := [], posts := [{ id := 1, upvotes := 0, downvotes := 0 }], comments := [], nextVoteId := 1 } "alice" { postId := some 7, commentId := none, type := "upvote" }).2
      = { votes := [], posts := [{ id := 1, upvotes := 0, downvotes := 0 }], comments := [], nextVoteId := 1 } :=
  ⟨rfl, by decide, rfl⟩

/-- C6 witness: the amended theorem applied to the nonexistent post 7. -/
theorem notfound_surfaces_500_witness :
    castVote { votes := [], posts := [{ id := 1, upvotes := 0, downvotes := 0 }], comments := [], nextVoteId := 1 } "alice" { postId := some 7, commentId := none, type := "upvote" }
      = ((500, failedMsg), { votes := [], posts := [{ id := 1, upvotes := 0, downvotes := 0 }], comments := [], nextVoteId := 1 }) :=
  notfound_surfaces_500 { votes := [], posts := [{ id := 1, upvotes := 0, downvotes := 0 }], comments := [], nextVoteId := 1 } "alice"
    { postId := some 7, commentId := none, type := "upvote" } rfl rfl

/-- C7 (amended): a direction outside up/down is not rejected.  The
existing-vote lookup always runs first, the generated zod schema accepts
any string in `type`, and with no matching vote and an existing target
the handler answers HTTP 200, inserts a vote row carrying the invalid
string, and increments the target's downvote counter (every non-"upvote"
string selects the downvotes column). -/
theorem invalid_direction_accepted (s : DbState) (V : String) (tgt : TargetRef) (t : String)
    (u0 v0 : Int)
    (ht : t ≠ "upvote" ∧ t ≠ "downvote")
    (hid : tgt.tid ≠ 0)
    (hg : getVote s V tgt.postIdOpt tgt.commentIdOpt = none)
    (hfk : fkOk s { userId := V, postId := tgt.postIdOpt, commentId := tgt.commentIdOpt,
                    type := t } = true)
    (hu0 : targetUp s tgt = some u0) (hv0 : targetDown s tgt = some v0) :
    (castVote s V (mkBody tgt t)).1
        = (200, voteToJson { id := s.nextVoteId, userId := V, postId := tgt.postIdOpt,
                             commentId := tgt.commentIdOpt, type := t }) ∧
    (castVote s V (mkBody tgt t)).2.votes
        = s.votes ++ [{ id := s.nextVoteId, userId := V, postId := tgt.postIdOpt,
                        commentId := tgt.commentIdOpt, type := t }] ∧
    targetUp (castVote s V (mkBody tgt t)).2 tgt = some u0 ∧
    targetDown (castVote s V (mkBody tgt t)).2 tgt = some (v0 + 1) := by
  have hft : fieldOf t = "downvotes" := by simp [fieldOf, ht.1]
  rw [mkBody_fields tgt t]
  cases tgt with
  | post p =>
    have hp0 : p ≠ 0 := by simpa [TargetRef.tid] using hid
    simp only [TargetRef.postIdOpt, TargetRef.commentIdOpt] at hg hfk hu0 hv0 ⊢
    simp only [targetUp, targetDown] at hu0 hv0
    cases hfind : s.posts.find? (fun P => P.id == p) with
    | none =>
      rw [hfind] at hu0
      cases hu0
    | some P0 =>
      rw [hfind] at hu0 hv0
      simp only [Option.map_some', Option.some.injEq] at hu0 hv0
      have h1c : castVote s V { postId := some p, commentId := none, type := t }
          = ((200, voteToJson { id := s.nextVoteId, userId := V, postId := some p,
                                commentId := none, type := t }),
             { votes := s.votes ++ [{ id := s.nextVoteId, userId := V, postId := some p,
                                      commentId := none, type := t }],
               posts := updatePosts s.posts p [("downvotes", 1)],
               comments := s.comments,
               nextVoteId := s.nextVoteId + 1 }) := by
        unfold castVote
        dsimp only
        rw [hg]
        dsimp only
        rw [createVote_eq hfk]
        simp [truthy, hp0, hft]
      rw [h1c]
      refine ⟨rfl, rfl, ?_, ?_⟩
      · simp only [targetUp]
        rw [find?_updatePosts, hfind]
        simp [Post.applyDelta, hu0]
      · simp only [targetDown]
        rw [find?_updatePosts, hfind]
        simp [Post.applyDelta, hv0]
  | comment c =>
    have hc0 : c ≠ 0 := by simpa [TargetRef.tid] using hid
    simp only [TargetRef.postIdOpt, TargetRef.commentIdOpt] at hg hfk hu0 hv0 ⊢
    simp only [targetUp, targetDown] at hu0 hv0
    cases hfind : s.comments.find? (fun C => C.id == c) with
    | none =>
      rw [hfind] at hu0
      cases hu0
    | some C0 =>
      rw [hfind] at hu0 hv0
      simp only [Option.map_some', Option.some.injEq] at hu0 hv0
      have h1c : castVote s V { postId := none, commentId := some c, type := t }
          = ((200, voteToJson { id := s.nextVoteId, userId := V, postId := none,
                                commentId := some c, type := t }),
             { votes := s.votes ++ [{ id := s.nextVoteId, userId := V, postId := none,
                                      commentId := some c, type := t }],
               posts := s.posts,
               comments := updateComments s.comments c [("downvotes", 1)],
               nextVoteId := s.nextVoteId + 1 }) := by
        unfold castVote
        dsimp only
        rw [hg]
        dsimp only
        rw [createVote_eq hfk]
        simp [truthy, hc0, hft]
      rw [h1c]
      refine ⟨rfl, rfl, ?_, ?_⟩
      · simp only [targetUp]
        rw [find?_updateComments, hfind]
        simp [Comment.applyDelta, hu0]
      · simp only [targetDown]
        rw [find?_updateComments, hfind]
        simp [Comment.applyDelta, hv0]

/-- C7 counterexample: the direction "sideways" on existing post 1 is
answered with HTTP 200 (not 400) after the lookup; a vote row with the
invalid value is inserted and the downvote counter rises to 1. -/
theorem invalid_direction_counterexample :
    (castVote { votes := [], posts := [{ id := 1, upvotes := 0, downvotes := 0 }], comments := [], nextVoteId := 1 } "alice" { postId := some 1, commentId := none, type := "sideways" }).1.1
      = 200 ∧
    (castVote { votes := [], posts := [{ id := 1, upvotes := 0, downvotes := 0 }], comments := [], nextVoteId := 1 } "alice" { postId := some 1, commentId := none, type := "sideways" }).1.1
      ≠ 400 ∧
    (castVote { votes := [], posts := [{ id := 1, upvotes := 0, downvotes := 0 }], comments := [], nextVoteId := 1 } "alice" { postId := some 1, commentId := none, type := "sideways" }).2.votes
      = [{ id := 1, userId := "alice", postId := some 1, commentId := none,
           type := "sideways" }] ∧
    targetDown (castVote { votes := [], posts := [{ id := 1, upvotes := 0, downvotes := 0 }], comments := [], nextVoteId := 1 } "alice"
        { postId := some 1, commentId := none, type := "sideways" }).2 (TargetRef.post 1)
      = some 1 :=
  ⟨rfl, by decide, rfl, rfl⟩

/-- C7 witness: the amended theorem applied to direction "sideways" on
post 1. -/
theorem invalid_direction_accepted_witness :
    (castVote { votes := [], posts := [{ id := 1, upvotes := 0, downvotes := 0 }], comments := [], nextVoteId := 1 } "alice" (mkBody (TargetRef.post 1) "sideways")).1
        = (200, voteToJson { id := 1, userId := "alice", postId := some 1,
                             commentId := none, type := "sideways" }) ∧
    (castVote { votes := [], posts := [{ id := 1, upvotes := 0, downvotes := 0 }], comments := [], nextVoteId := 1 } "alice" (mkBody (TargetRef.post 1) "sideways")).2.votes
        = [{ id := 1, userId := "alice", postId := some 1, commentId := none,
             type := "sideways" }] ∧
    targetUp (castVote { votes := [], posts := [{ id := 1, upvotes := 0, downvotes := 0 }], comments := [], nextVoteId := 1 } "alice" (mkBody (TargetRef.post 1) "sideways")).2
        (TargetRef.post 1) = some 0 ∧
    targetDown (castVote { votes := [], posts := [{ id := 1, upvotes := 0, downvotes := 0 }], comments := [], nextVoteId := 1 } "alice" (mkBody (TargetRef.post 1) "sideways")).2
        (TargetRef.post 1) = some 1 :=
  invalid_direction_accepted { votes := [], posts := [{ id := 1, upvotes := 0, downvotes := 0 }], comments := [], nextVoteId := 1 } "alice" (TargetRef.post 1) "sideways" 0 0
    ⟨by decide, by decide⟩ (by decide) rfl rfl rfl rfl


/-- C8 (amended): every HTTP-200 answer of the vote route is either the
removal message or the JSON serialization of a vote row (the created or
the updated row); no `status`, `direction`, `upvoteCount` or
`downvoteCount` fields are present in any response. -/
theorem success_response_shape (s : DbState) (V : String) (body : VoteBody)
    (h200 : (castVote s V body).1.1 = 200) :
    (castVote s V body).1.2 = removedMsg ∨
      ∃ v : Vote, (castVote s V body).1.2 = voteToJson v := by
  unfold castVote at h200 ⊢
  cases hg : getVote s V body.postId body.commentId with
  | some ev =>
    have hmem : ev ∈ s.votes := by
      unfold getVote at hg
      exact List.mem_of_find?_eq_some hg
    dsimp only
    by_cases heq : (ev.type == body.type) = true
    · rw [if_pos heq]
      exact Or.inl rfl
    · rw [if_neg heq]
      unfold updateVote
      cases hf : s.votes.find? (fun v => v.id == ev.id) with
      | none =>
        exact absurd (by simp) (List.find?_eq_none.mp hf ev hmem)
      | some w =>
        dsimp only
        have hsome : ((s.votes.map
            (fun w2 => if w2.id == ev.id then { w2 with type := body.type } else w2)).find?
              (fun w2 => w2.id == ev.id)).isSome := by
          apply List.find?_isSome.mpr
          refine ⟨if ev.id == ev.id then { ev with type := body.type } else ev, ?_, ?_⟩
          · exact List.mem_map.mpr ⟨ev, hmem, rfl⟩
          · rw [if_pos (by simp)]
            simp
        obtain ⟨v, hv⟩ := Option.isSome_iff_exists.mp hsome
        rw [hv]
        exact Or.inr ⟨v, rfl⟩
  | none =>
    dsimp only at h200 ⊢
    cases hc : createVote s { userId := V, postId := body.postId,
                              commentId := body.commentId, type := body.type } with
    | ok r =>
      obtain ⟨nv, s2⟩ := r
      exact Or.inr ⟨nv, rfl⟩
    | error e =>
      rw [hg, hc] at h200
      cases h200

/-- C8 counterexample: the successful first vote of scenario A answers
HTTP 200 with the vote row — there is no `status`, `direction`,
`upvoteCount` or `downvoteCount` field in the body. -/
theorem success_response_shape_counterexample :
    (castVote { votes := [], posts := [{ id := 1, upvotes := 0, downvotes := 0 }], comments := [], nextVoteId := 1 } "alice" { postId := some 1, commentId := none, type := "upvote" }).1.1 = 200 ∧
    ((castVote { votes := [], posts := [{ id := 1, upvotes := 0, downvotes := 0 }], comments := [], nextVoteId := 1 } "alice" { postId := some 1, commentId := none, type := "upvote" }).1.2).getField "status" = none ∧
    ((castVote { votes := [], posts := [{ id := 1, upvotes := 0, downvotes := 0 }], comments := [], nextVoteId := 1 } "alice" { postId := some 1, commentId := none, type := "upvote" }).1.2).getField "direction" = none ∧
    ((castVote { votes := [], posts := [{ id := 1, upvotes := 0, downvotes := 0 }], comments := [], nextVoteId := 1 } "alice" { postId := some 1, commentId := none, type := "upvote" }).1.2).getField "upvoteCount" = none ∧
    ((castVote { votes := [], posts := [{ id := 1, upvotes := 0, downvotes := 0 }], comments := [], nextVoteId := 1 } "alice" { postId := some 1, commentId := none, type := "upvote" }).1.2).getField "downvoteCount" = none :=
  ⟨rfl, rfl, rfl, rfl, rfl⟩

/-- C8 witness: the amended response-shape theorem applied to the
scenario-A first vote. -/
theorem success_response_shape_witness :
    (castVote { votes := [], posts := [{ id := 1, upvotes := 0, downvotes := 0 }], comments := [], nextVoteId := 1 } "alice" { postId := some 1, commentId := none, type := "upvote" }).1.2 = removedMsg ∨
      ∃ v : Vote, (castVote { votes := [], posts := [{ id := 1, upvotes := 0, downvotes := 0 }], comments := [], nextVoteId := 1 } "alice" { postId := some 1, commentId := none, type := "upvote" }).1.2 = voteToJson v :=
  success_response_shape { votes := [], posts := [{ id := 1, upvotes := 0, downvotes := 0 }], comments := [], nextVoteId := 1 } "alice" { postId := some 1, commentId := none, type := "upvote" } rfl

/-- C9: when both target ids are JS-falsy (absent or zero), getVote's
filter degenerates to the userId condition alone, returning the user's
first vote on ANY target; consequently a no-target upvote request by a
user holding an upvote on post 5 deletes that unrelated vote and
decrements post 5's upvote counter. -/
theorem getVote_falsy_ids (s : DbState) (V : String) (p c : Option Nat)
    (hp : truthy p = false) (hc : truthy c = false) :
    getVote s V p c = s.votes.find? (fun v => v.userId == V) ∧
    (castVote { votes := [{ id := 1, userId := "alice", postId := some 5, commentId := none, type := "upvote" }], posts := [{ id := 5, upvotes := 1, downvotes := 0 }], comments := [], nextVoteId := 2 } "alice"
        { postId := none, commentId := none, type := "upvote" }).2.votes = [] ∧
    targetUp (castVote { votes := [{ id := 1, userId := "alice", postId := some 5, commentId := none, type := "upvote" }], posts := [{ id := 5, upvotes := 1, downvotes := 0 }], comments := [], nextVoteId := 2 } "alice"
        { postId := none, commentId := none, type := "upvote" }).2 (TargetRef.post 5)
      = some 0 := by
  refine ⟨?_, rfl, rfl⟩
  unfold getVote
  rw [show voteMatches V p c = (fun v => v.userId == V) from
    funext (fun v => by simp [voteMatches, hp, hc])]

/-- C9 witness: the filter reduction at concrete falsy ids (absent post
id, zero comment id) on the demo state. -/
theorem getVote_falsy_ids_witness :
    getVote { votes := [{ id := 1, userId := "alice", postId := some 5, commentId := none, type := "upvote" }], posts := [{ id := 5, upvotes := 1, downvotes := 0 }], comments := [], nextVoteId := 2 } "bob" none (some 0)
      = ({ votes := [{ id := 1, userId := "alice", postId := some 5, commentId := none, type := "upvote" }], posts := [{ id := 5, upvotes := 1, downvotes := 0 }], comments := [], nextVoteId := 2 } : DbState).votes.find? (fun v => v.userId == "bob") ∧
    (castVote { votes := [{ id := 1, userId := "alice", postId := some 5, commentId := none, type := "upvote" }], posts := [{ id := 5, upvotes := 1, downvotes := 0 }], comments := [], nextVoteId := 2 } "alice"
        { postId := none, commentId := none, type := "upvote" }).2.votes = [] ∧
    targetUp (castVote { votes := [{ id := 1, userId := "alice", postId := some 5, commentId := none, type := "upvote" }], posts := [{ id := 5, upvotes := 1, downvotes := 0 }], comments := [], nextVoteId := 2 } "alice"
        { postId := none, commentId := none, type := "upvote" }).2 (TargetRef.post 5)
      = some 0 :=
  getVote_falsy_ids { votes := [{ id := 1, userId := "alice", postId := some 5, commentId := none, type := "upvote" }], posts := [{ id := 5, upvotes := 1, downvotes := 0 }], comments := [], nextVoteId := 2 } "bob" none (some 0) rfl rfl


/-- C10: a direct `updateVote` call whose new type equals the vote row's
stored type builds a JavaScript update object whose two computed keys
coincide, so the decrement entry is overwritten by the increment and the
counter selected by the vote's type rises by one while nothing falls;
the `/api/votes` route never reaches this path, because a request whose
type equals the stored type takes the delete branch. -/
theorem updateVote_same_type (s : DbState) (ev : Vote) (p : Nat) (u0 v0 : Int)
    (hpw : s.votes.Pairwise (fun a b => a.id ≠ b.id)) (hmem : ev ∈ s.votes)
    (hpid : ev.postId = some p) (hp0 : p ≠ 0) (hcid : ev.commentId = none)
    (hu0 : targetUp s (TargetRef.post p) = some u0)
    (hv0 : targetDown s (TargetRef.post p) = some v0)
    (s2 : DbState) (V : String) (body : VoteBody) (ev2 : Vote)
    (hg : getVote s2 V body.postId body.commentId = some ev2)
    (heq : ev2.type = body.type) :
    (ev.type = "upvote" →
       targetUp (updateVote s ev.id ev.type).2 (TargetRef.post p) = some (u0 + 1) ∧
       targetDown (updateVote s ev.id ev.type).2 (TargetRef.post p) = some v0) ∧
    (ev.type ≠ "upvote" →
       targetUp (updateVote s ev.id ev.type).2 (TargetRef.post p) = some u0 ∧
       targetDown (updateVote s ev.id ev.type).2 (TargetRef.post p) = some (v0 + 1)) ∧
    castVote s2 V body = ((200, removedMsg), deleteVote s2 ev2.id) := by
  have htp : truthy (some p) = true := by simp [truthy, hp0]
  rw [updateVote_eq ev.type hpw hmem]
  dsimp only
  rw [hpid, hcid, if_pos htp, if_neg (by simp [truthy]),
    show updObj (fieldOf ev.type) (fieldOf ev.type) = [(fieldOf ev.type, (1 : Int))] from by
      simp [updObj]]
  simp only [Option.getD_some]
  simp only [targetUp, targetDown] at hu0 hv0
  cases hfind : s.posts.find? (fun P => P.id == p) with
  | none =>
    rw [hfind] at hu0
    cases hu0
  | some P0 =>
    rw [hfind] at hu0 hv0
    simp only [Option.map_some', Option.some.injEq] at hu0 hv0
    refine ⟨?_, ?_, ?_⟩
    · intro htype
      rw [htype, show fieldOf "upvote" = "upvotes" from rfl]
      constructor
      · simp only [targetUp]
        rw [find?_updatePosts, hfind]
        simp [Post.applyDelta, hu0]
      · simp only [targetDown]
        rw [find?_updatePosts, hfind]
        simp [Post.applyDelta, hv0]
    · intro htype
      rw [show fieldOf ev.type = "downvotes" from by simp [fieldOf, htype]]
      constructor
      · simp only [targetUp]
        rw [find?_updatePosts, hfind]
        simp [Post.applyDelta, hu0]
      · simp only [targetDown]
        rw [find?_updatePosts, hfind]
        simp [Post.applyDelta, hv0]
    · unfold castVote
      rw [hg]
      dsimp only
      rw [if_pos (by simp [heq])]

/-- C10 witness: a direct same-type `updateVote` on the demo state pushes
post 5's upvote counter from 1 to 2 without any decrement, and the
route's equal-type request takes the delete branch instead. -/
theorem updateVote_same_type_witness :
    (("upvote" : String) = "upvote" →
       targetUp (updateVote { votes := [{ id := 1, userId := "alice", postId := some 5, commentId := none, type := "upvote" }], posts := [{ id := 5, upvotes := 1, downvotes := 0 }], comments := [], nextVoteId := 2 } 1 "upvote").2 (TargetRef.post 5) = some (1 + 1) ∧
       targetDown (updateVote { votes := [{ id := 1, userId := "alice", postId := some 5, commentId := none, type := "upvote" }], posts := [{ id := 5, upvotes := 1, downvotes := 0 }], comments := [], nextVoteId := 2 } 1 "upvote").2 (TargetRef.post 5) = some 0) ∧
    (("upvote" : String) ≠ "upvote" →
       targetUp (updateVote { votes := [{ id := 1, userId := "alice", postId := some 5, commentId := none, type := "upvote" }], posts := [{ id := 5, upvotes := 1, downvotes := 0 }], comments := [], nextVoteId := 2 } 1 "upvote").2 (TargetRef.post 5) = some 1 ∧
       targetDown (updateVote { votes := [{ id := 1, userId := "alice", postId := some 5, commentId := none, type := "upvote" }], posts := [{ id := 5, upvotes := 1, downvotes := 0 }], comments := [], nextVoteId := 2 } 1 "upvote").2 (TargetRef.post 5) = some (0 + 1)) ∧
    castVote { votes := [{ id := 1, userId := "alice", postId := some 5, commentId := none, type := "upvote" }], posts := [{ id := 5, upvotes := 1, downvotes := 0 }], comments := [], nextVoteId := 2 } "alice" { postId := some 5, commentId := none, type := "upvote" }
      = ((200, removedMsg), deleteVote { votes := [{ id := 1, userId := "alice", postId := some 5, commentId := none, type := "upvote" }], posts := [{ id := 5, upvotes := 1, downvotes := 0 }], comments := [], nextVoteId := 2 } 1) :=
  updateVote_same_type { votes := [{ id := 1, userId := "alice", postId := some 5, commentId := none, type := "upvote" }], posts := [{ id := 5, upvotes := 1, downvotes := 0 }], comments := [], nextVoteId := 2 } { id := 1, userId := "alice", postId := some 5, commentId := none, type := "upvote" } 5 1 0
    (by decide) (by decide) rfl (by decide) rfl rfl rfl
    { votes := [{ id := 1, userId := "alice", postId := some 5, commentId := none, type := "upvote" }], posts := [{ id := 5, upvotes := 1, downvotes := 0 }], comments := [], nextVoteId := 2 } "alice" { postId := some 5, commentId := none, type := "upvote" } { id := 1, userId := "alice", postId := some 5, commentId := none, type := "upvote" }
    rfl rfl

end Kgotla
